import Mathlib

/-! Path planner (`src/main.cpp`): a shallow embedding and its verified properties.

The planner's `double` values are embedded in an arbitrary linearly ordered
field `K` (exact arithmetic; `ℚ` gives an executable instance), its `int`
values in `ℤ`.  The functions of `<math.h>` that the planner calls (`sqrt`,
`cos`, `sin`, `atan2`, the constant `M_PI`) are not part of the repository and
are passed around as a record `Libm K`.  The fitted curve `tk::spline` (header
`spline.h`) is passed as a function `K → K`.
-/

namespace PathPlanning

/-! ## Data model -/

/-- The functions of `<math.h>` used by `main.cpp`, taken as parameters. -/
structure Libm (K : Type) where
  sqrt : K → K
  cos : K → K
  sin : K → K
  atan2 : K → K → K
  pi : K

/-- The mutable part of `struct context_t` (lines 169-190): the status of the car. -/
structure context_t (K : Type) where
  lane : ℤ
  speed : K

/-- One record of `sensor_fusion`: `car[0] .. car[6]` are `id, x, y, vx, vy, s, d`. -/
structure SensorCar (K : Type) where
  id : K
  x : K
  y : K
  vx : K
  vy : K
  s : K
  d : K

/-- The `vector<bool>` returned by `checkLanes`, indexed by `context_t::lane_status`:
`CAR_CLOSE_AHEAD = 0`, `CAR_TO_THE_LEFT = 1`, `CAR_TO_THE_RIGHT = 2`. -/
structure LanesStatus where
  car_close_ahead : Bool
  car_to_the_left : Bool
  car_to_the_right : Bool
  deriving DecidableEq, Repr

section Defs

variable {K : Type} [LinearOrderedField K]

/-- The value a freshly constructed `context_t` has: `lane = 1`, `speed = 0.`. -/
def context_t.init : context_t K := { lane := 1, speed := 0 }

/-- The constant `const double SAFE_GAP = 30.;` -/
def context_t.SAFE_GAP (_ctx : context_t K) : K := 30
/-- The constant `const double MAX_SPEED = 49.5;` -/
def context_t.MAX_SPEED (_ctx : context_t K) : K := 49.5
/-- The constant `const double MAX_ACC = 0.224;` -/
def context_t.MAX_ACC (_ctx : context_t K) : K := 0.224
/-- The constant `const double LANE_WIDTH = 4.;` -/
def context_t.LANE_WIDTH (_ctx : context_t K) : K := 4
/-- The constant `const double PREDICTION_BASE_STEP = 30.;` -/
def context_t.PREDICTION_BASE_STEP (_ctx : context_t K) : K := 30
/-- The constant `const int N_PREDICTION_POINTS = 50;` -/
def context_t.N_PREDICTION_POINTS (_ctx : context_t K) : ℤ := 50
/-- The constant `const double UPDATE_RATE = 0.02;` -/
def context_t.UPDATE_RATE (_ctx : context_t K) : K := 0.02

/-- The function `deg2rad` (line 20). -/
def deg2rad (m : Libm K) (x : K) : K := x * m.pi / 180

/-- The function `distance` (lines 42-45). -/
def distance (m : Libm K) (x1 y1 x2 y2 : K) : K :=
  m.sqrt ((x2 - x1) * (x2 - x1) + (y2 - y1) * (y2 - y1))

/-! ## Traffic analysis: `checkLanes` (lines 195-245) -/

/-- Lines 203-210 of `checkLanes`: the lane a lateral offset `d` is classified into,
`-1` when it is outside the three lanes. -/
def carLane (ctx : context_t K) (d : K) : ℤ :=
  if d ≥ 0 ∧ d < ctx.LANE_WIDTH then 0
  else if d ≥ ctx.LANE_WIDTH ∧ d < 2 * ctx.LANE_WIDTH then 1
  else if d ≥ 2 * ctx.LANE_WIDTH ∧ d ≤ 3 * ctx.LANE_WIDTH then 2
  else -1

/-- Line 221 of `checkLanes`: the extrapolated longitudinal position of a car,
`car[5] + prediction_length * UPDATE_RATE * distance(0, 0, car[3], car[4])`. -/
def predictedS (m : Libm K) (ctx : context_t K) (prediction_length : ℤ)
    (car : SensorCar K) : K :=
  let car_vx := car.vx
  let car_vy := car.vy
  let car_speed := distance m 0 0 car_vx car_vy
  let car_s := car.s
  car_s + (prediction_length : K) * ctx.UPDATE_RATE * car_speed

/-- The body of the loop of `checkLanes` (lines 203-241): the three flags after
one more car. -/
def checkCar (m : Libm K) (ctx : context_t K) (my_car_s : K) (prediction_length : ℤ)
    (st : LanesStatus) (car : SensorCar K) : LanesStatus :=
  let d := car.d
  let car_lane := carLane ctx d
  if car_lane < 0 ∨ car_lane > 2 then st
  else
    let car_s := predictedS m ctx prediction_length car
    if ctx.lane - car_lane = 0 then
      { st with car_close_ahead := st.car_close_ahead ||
          (decide (car_s - my_car_s > 0) && decide (car_s - my_car_s < ctx.SAFE_GAP)) }
    else if ctx.lane - car_lane = 1 then
      { st with car_to_the_left := st.car_to_the_left ||
          (decide (car_s - my_car_s > -ctx.SAFE_GAP) && decide (car_s - my_car_s < ctx.SAFE_GAP)) }
    else if ctx.lane - car_lane = -1 then
      { st with car_to_the_right := st.car_to_the_right ||
          (decide (car_s - my_car_s > -ctx.SAFE_GAP) && decide (car_s - my_car_s < ctx.SAFE_GAP)) }
    else st

/-- The function `checkLanes` (lines 195-245): the loop over `sensor_fusion`,
started with the three flags `false`. -/
def checkLanes (m : Libm K) (ctx : context_t K) (sensor_fusion : List (SensorCar K))
    (my_car_s : K) (prediction_length : ℤ) : LanesStatus :=
  sensor_fusion.foldl (checkCar m ctx my_car_s prediction_length)
    { car_close_ahead := false, car_to_the_left := false, car_to_the_right := false }

/-! ## Behaviour decision: `chooseBehaviour` (lines 250-291) -/

/-- The function `chooseBehaviour` (lines 250-291); the updated context is returned. -/
def chooseBehaviour (ctx : context_t K) (lanes_status : LanesStatus) : context_t K :=
  if lanes_status.car_close_ahead then
    if !lanes_status.car_to_the_left ∧ ctx.lane > 0 then
      { ctx with lane := ctx.lane - 1 }
    else if !lanes_status.car_to_the_right ∧ ctx.lane < 2 then
      { ctx with lane := ctx.lane + 1 }
    else
      { ctx with speed := ctx.speed - ctx.MAX_ACC }
  else
    let ctx1 : context_t K :=
      if (ctx.lane = 2 ∧ !lanes_status.car_to_the_left) ∨
          (ctx.lane = 0 ∧ !lanes_status.car_to_the_right) then
        { ctx with lane := 1 }
      else ctx
    if ctx1.speed < ctx1.MAX_SPEED then
      { ctx1 with speed := ctx1.speed + ctx1.MAX_ACC }
    else ctx1

/-- The persistent context after a sequence of ticks, each applying `chooseBehaviour`
with that tick's flags (line 491), from a given context. -/
def runTicks (ctx : context_t K) (flags : List LanesStatus) : context_t K :=
  flags.foldl chooseBehaviour ctx

/-! ## Frenet to Cartesian: `getXY` (lines 140-164) -/

/-- A read `v[i]` of a `vector<double>` at an `int` index: `none` when the index
is outside `[0, v.size())`. -/
def readAt (v : List K) (i : ℤ) : Option K :=
  if 0 ≤ i then v[i.toNat]? else none

/-- The `while` loop of `getXY` (lines 144-147), entered with the current value of
`prev_wp`: the condition first reads `maps_s[prev_wp+1]` (`none` when that index is
outside the vector), then compares `prev_wp` with `(int)(maps_s.size()-1)`. -/
def getXY_scan (maps_s : List K) (s : K) (prev_wp : ℤ) : Option ℤ :=
  if h : 0 ≤ prev_wp + 1 ∧ (prev_wp + 1).toNat < maps_s.length then
    if s > maps_s[(prev_wp + 1).toNat] ∧ prev_wp < (maps_s.length : ℤ) - 1 then
      getXY_scan maps_s s (prev_wp + 1)
    else some prev_wp
  else none
termination_by maps_s.length - (prev_wp + 1).toNat
decreasing_by omega

/-- The function `getXY` (lines 140-164); `none` when a vector is read outside its
bounds or `maps_x` is empty (the modulus of line 149 would be zero). -/
def getXY (m : Libm K) (s d : K) (maps_s maps_x maps_y : List K) : Option (K × K) := do
  let prev_wp ← getXY_scan maps_s s (-1)
  if maps_x.length = 0 then none
  let wp2 : ℤ := (prev_wp + 1) % (maps_x.length : ℤ)
  let y2 ← readAt maps_y wp2
  let yp ← readAt maps_y prev_wp
  let x2 ← readAt maps_x wp2
  let xp ← readAt maps_x prev_wp
  let heading := m.atan2 (y2 - yp) (x2 - xp)
  let sp ← readAt maps_s prev_wp
  let seg_s := s - sp
  let seg_x := xp + seg_s * m.cos heading
  let seg_y := yp + seg_s * m.sin heading
  let perp_heading := heading - m.pi / 2
  let x := seg_x + d * m.cos perp_heading
  let y := seg_y + d * m.sin perp_heading
  pure (x, y)

/-! ## Anchor points: `buildPointsForBaseSpline` (lines 297-366) -/

/-- What `buildPointsForBaseSpline` produces: the returned `{ptsx, ptsy}` and the
reference frame written through `ref_x`, `ref_y`, `ref_yaw`. -/
structure BasePoints (K : Type) where
  ptsx : List K
  ptsy : List K
  ref_x : K
  ref_y : K
  ref_yaw : K

/-- Lines 358-362: one point converted to the reference (car) coordinate system. -/
def toCarFrame (m : Libm K) (ref_x ref_y ref_yaw : K) (px py : K) : K × K :=
  let shift_x := px - ref_x
  let shift_y := py - ref_y
  (shift_x * m.cos (0 - ref_yaw) - shift_y * m.sin (0 - ref_yaw),
   shift_x * m.sin (0 - ref_yaw) + shift_y * m.cos (0 - ref_yaw))

/-- Lines 302-353 of `buildPointsForBaseSpline`: the reference frame and the five
anchor points in global coordinates, before the conversion loop. -/
def globalAnchors (m : Libm K) (ctx : context_t K) (car_x car_y car_yaw car_s : K)
    (prev_path_x prev_path_y : List K) (mwp_s mwp_x mwp_y : List K) :
    Option (BasePoints K) := do
  let prev_size : ℤ := prev_path_x.length
  let first ← (if prev_size < 2 then
      some ({ ptsx := [car_x - m.cos car_yaw, car_x],
              ptsy := [car_y - m.sin car_yaw, car_y],
              ref_x := car_x, ref_y := car_y, ref_yaw := deg2rad m car_yaw } : BasePoints K)
    else do
      let ref_x ← readAt prev_path_x (prev_size - 1)
      let ref_y ← readAt prev_path_y (prev_size - 1)
      let ref_x_prev ← readAt prev_path_x (prev_size - 2)
      let ref_y_prev ← readAt prev_path_y (prev_size - 2)
      let ref_yaw := m.atan2 (ref_y - ref_y_prev) (ref_x - ref_x_prev)
      some { ptsx := [ref_x_prev, ref_x], ptsy := [ref_y_prev, ref_y],
             ref_x := ref_x, ref_y := ref_y, ref_yaw := ref_yaw })
  let wp0 ← getXY m (car_s + 1 * ctx.PREDICTION_BASE_STEP)
    (((ctx.lane : K) + 0.5) * ctx.LANE_WIDTH) mwp_s mwp_x mwp_y
  let wp1 ← getXY m (car_s + 2 * ctx.PREDICTION_BASE_STEP)
    (((ctx.lane : K) + 0.5) * ctx.LANE_WIDTH) mwp_s mwp_x mwp_y
  let wp2 ← getXY m (car_s + 3 * ctx.PREDICTION_BASE_STEP)
    (((ctx.lane : K) + 0.5) * ctx.LANE_WIDTH) mwp_s mwp_x mwp_y
  pure { first with ptsx := first.ptsx ++ [wp0.1, wp1.1, wp2.1],
                    ptsy := first.ptsy ++ [wp0.2, wp1.2, wp2.2] }

/-- The function `buildPointsForBaseSpline` (lines 297-366): the anchors of
`globalAnchors`, each converted to the reference frame by the loop of lines 356-363. -/
def buildPointsForBaseSpline (m : Libm K) (ctx : context_t K)
    (car_x car_y car_yaw car_s : K) (prev_path_x prev_path_y : List K)
    (mwp_s mwp_x mwp_y : List K) : Option (BasePoints K) := do
  let g ← globalAnchors m ctx car_x car_y car_yaw car_s prev_path_x prev_path_y
    mwp_s mwp_x mwp_y
  pure { g with
    ptsx := List.zipWith (fun x y => (toCarFrame m g.ref_x g.ref_y g.ref_yaw x y).1)
      g.ptsx g.ptsy,
    ptsy := List.zipWith (fun x y => (toCarFrame m g.ref_x g.ref_y g.ref_yaw x y).2)
      g.ptsx g.ptsy }

/-! ## Resampling: `fillRestOfPath` (lines 371-402) and the path assembly -/

/-- The divisor of line 379, `ctx.UPDATE_RATE * ctx.speed / 2.24`. -/
def stepsDivisor (ctx : context_t K) : K := ctx.UPDATE_RATE * ctx.speed / 2.24

/-- The value `steps` of line 379 for a fitted curve (lines 374-379).  Division is
the field's, total with `x / 0 = 0`; the source divides IEEE doubles. -/
def fillSteps (m : Libm K) (ctx : context_t K) (base_spline : K → K) : K :=
  let base_step_x := ctx.PREDICTION_BASE_STEP
  let base_step_y := base_spline base_step_x
  let base_step_dist := distance m 0 0 base_step_x base_step_y
  base_step_dist / stepsDivisor ctx

/-- The loop of `fillRestOfPath` (lines 381-400), run for the given number of
iterations on the state `(x_to_add, next_x_vals, next_y_vals)`. -/
def fillLoop (m : Libm K) (base_spline : K → K) (ref_x ref_y ref_yaw base_step_x steps : K) :
    ℕ → K × List K × List K → K × List K × List K
  | 0, st => st
  | n + 1, (x_to_add, next_x_vals, next_y_vals) =>
    let x_point := x_to_add + base_step_x / steps
    let y_point := base_spline x_point
    let x_car := x_point
    let y_car := y_point
    let gx := (x_car * m.cos ref_yaw - y_car * m.sin ref_yaw) + ref_x
    let gy := (x_car * m.sin ref_yaw + y_car * m.cos ref_yaw) + ref_y
    fillLoop m base_spline ref_x ref_y ref_yaw base_step_x steps n
      (x_point, next_x_vals ++ [gx], next_y_vals ++ [gy])

/-- The function `fillRestOfPath` (lines 371-402); the two extended vectors are
returned.  The loop runs `N_PREDICTION_POINTS - prediction_length` times, no time
when that `int` is not positive. -/
def fillRestOfPath (m : Libm K) (ctx : context_t K) (next_x_vals next_y_vals : List K)
    (base_spline : K → K) (ref_x ref_y ref_yaw : K) (prediction_length : ℤ) :
    List K × List K :=
  let base_step_x := ctx.PREDICTION_BASE_STEP
  let steps := fillSteps m ctx base_spline
  let r := fillLoop m base_spline ref_x ref_y ref_yaw base_step_x steps
    (ctx.N_PREDICTION_POINTS - prediction_length).toNat (0, next_x_vals, next_y_vals)
  (r.2.1, r.2.2)

/-- The copy loop of lines 509-513, with `n` iterations left at index `i`: each
iteration reads `previous_path_x[i]` and `previous_path_y[i]` (`none` when an index
is outside its array). -/
def copyLoop (previous_path_x previous_path_y : List K) :
    ℕ → ℕ → List K × List K → Option (List K × List K)
  | 0, _, acc => some acc
  | n + 1, i, (next_x_vals, next_y_vals) => do
    let x ← previous_path_x[i]?
    let y ← previous_path_y[i]?
    copyLoop previous_path_x previous_path_y n (i + 1)
      (next_x_vals ++ [x], next_y_vals ++ [y])

/-- Lines 504-516 of the telemetry handler: the previous path is copied into the
empty `next_x_vals`, `next_y_vals`, then `fillRestOfPath` adds the new points;
`prediction_length` is `previous_path_x.size()` (line 484). -/
def assemblePath (m : Libm K) (ctx : context_t K) (base_spline : K → K)
    (ref_x ref_y ref_yaw : K) (previous_path_x previous_path_y : List K) :
    Option (List K × List K) := do
  let prediction_length : ℤ := previous_path_x.length
  let (next_x_vals, next_y_vals) ←
    copyLoop previous_path_x previous_path_y previous_path_x.length 0 ([], [])
  pure (fillRestOfPath m ctx next_x_vals next_y_vals base_spline ref_x ref_y ref_yaw
    prediction_length)

/-! ## One tick: the telemetry handler (lines 467-516) -/

/-- The fields of a telemetry message the handler reads (lines 467-482). -/
structure Telemetry (K : Type) where
  car_x : K
  car_y : K
  car_s : K
  car_d : K
  car_yaw : K
  car_speed : K
  previous_path_x : List K
  previous_path_y : List K
  end_path_s : K
  end_path_d : K
  sensor_fusion : List (SensorCar K)

/-- Lines 484-498 of the handler: the flags, the decision and the anchor points.
Returns the updated context and the anchors. -/
def planTick (m : Libm K) (mwp_s mwp_x mwp_y : List K) (ctx : context_t K)
    (t : Telemetry K) : Option (context_t K × BasePoints K) := do
  let prediction_length : ℤ := t.previous_path_x.length
  let car_s := if prediction_length > 0 then t.end_path_s else t.car_s
  let lanes_status := checkLanes m ctx t.sensor_fusion car_s prediction_length
  let ctx := chooseBehaviour ctx lanes_status
  let pts ← buildPointsForBaseSpline m ctx t.car_x t.car_y t.car_yaw car_s
    t.previous_path_x t.previous_path_y mwp_s mwp_x mwp_y
  pure (ctx, pts)

/-- The telemetry handler (lines 467-522): `set_points` is `tk::spline::set_points`
followed by the evaluation of the fitted curve.  Returns the updated context and
the vectors sent as `next_x`, `next_y`. -/
def onTelemetry (m : Libm K) (set_points : List K → List K → K → K)
    (mwp_s mwp_x mwp_y : List K) (ctx : context_t K) (t : Telemetry K) :
    Option (context_t K × List K × List K) := do
  let (ctx, pts) ← planTick m mwp_s mwp_x mwp_y ctx t
  let base_spline := set_points pts.ptsx pts.ptsy
  let path ← assemblePath m ctx base_spline pts.ref_x pts.ref_y pts.ref_yaw
    t.previous_path_x t.previous_path_y
  pure (ctx, path.1, path.2)

/-! ## Map queries: `ClosestWaypoint`, `NextWaypoint` (lines 47-89) -/

/-- The loop of `ClosestWaypoint` (lines 53-63), with `n` iterations left at index `i`,
on the state `(closestLen, closestWaypoint)`; `none` when `maps_x[i]` or `maps_y[i]`
is outside its vector. -/
def closestLoop (m : Libm K) (x y : K) (maps_x maps_y : List K) :
    ℕ → ℕ → K × ℤ → Option (K × ℤ)
  | 0, _, st => some st
  | n + 1, i, (closestLen, closestWaypoint) => do
    let map_x ← maps_x[i]?
    let map_y ← maps_y[i]?
    let dist := distance m x y map_x map_y
    if dist < closestLen then
      closestLoop m x y maps_x maps_y n (i + 1) (dist, (i : ℤ))
    else
      closestLoop m x y maps_x maps_y n (i + 1) (closestLen, closestWaypoint)

/-- The function `ClosestWaypoint` (lines 47-65): the loop runs over
`i < maps_x.size()` from `closestLen = 100000`, `closestWaypoint = 0`. -/
def ClosestWaypoint (m : Libm K) (x y : K) (maps_x maps_y : List K) : Option ℤ := do
  let r ← closestLoop m x y maps_x maps_y maps_x.length 0 (100000, 0)
  pure r.2

/-- The lane is one of the three modelled lanes. -/
def validLane (lane : ℤ) : Prop := lane = 0 ∨ lane = 1 ∨ lane = 2

instance (lane : ℤ) : Decidable (validLane lane) := by
  unfold validLane; infer_instance

/-- The component-wise disjunction of two flag triples. -/
def LanesStatus.or (a b : LanesStatus) : LanesStatus :=
  { car_close_ahead := a.car_close_ahead || b.car_close_ahead,
    car_to_the_left := a.car_to_the_left || b.car_to_the_left,
    car_to_the_right := a.car_to_the_right || b.car_to_the_right }

/-- The flag triple `checkLanes` starts from. -/
def LanesStatus.clear : LanesStatus :=
  { car_close_ahead := false, car_to_the_left := false, car_to_the_right := false }

/-- The distance `ClosestWaypoint` computes for waypoint `j` (line 57):
`distance(x, y, maps_x[j], maps_y[j])`. -/
def wpDist (m : Libm K) (x y : K) (maps_x maps_y : List K) (j : ℕ) : K :=
  distance m x y (maps_x.getD j 0) (maps_y.getD j 0)

/-- Lines 392-396 of `fillRestOfPath`: the global position of the local point
`(x_car, y_car)`, rotated by `ref_yaw` and shifted by `(ref_x, ref_y)`. -/
def localToGlobal (m : Libm K) (ref_x ref_y ref_yaw x_car y_car : K) : K × K :=
  ((x_car * m.cos ref_yaw - y_car * m.sin ref_yaw) + ref_x,
   (x_car * m.sin ref_yaw + y_car * m.cos ref_yaw) + ref_y)

/-- The local-x step between consecutive new samples, for a target speed and the
value `f30` of the fitted curve at 30:
`30 * (UPDATE_RATE * speed / 2.24) / sqrt(30^2 + f30^2)`. -/
def sampleStep (m : Libm K) (ctx : context_t K) (f30 : K) : K :=
  30 * (ctx.UPDATE_RATE * ctx.speed / 2.24) / m.sqrt (30 ^ 2 + f30 ^ 2)

/-- A rational stand-in for `<math.h>`, used to evaluate the definitions on concrete
inputs: `sqrt` is exact on squares of rationals, the trigonometric functions are
low-order Taylor polynomials. -/
def Libm.sample : Libm ℚ where
  sqrt q := (Nat.sqrt (q.num.toNat * q.den) : ℚ) / q.den
  cos x := 1 - x ^ 2 / 2 + x ^ 4 / 24
  sin x := x - x ^ 3 / 6 + x ^ 5 / 120
  atan2 y x := if x = 0 then 0 else y / x - (y / x) ^ 3 / 3
  pi := 355 / 113

/-- The functions of `<math.h>` as functions of real numbers; `atan2 y x` is the
argument of the complex number `x + y i`, in `(-π, π]`. -/
noncomputable def Libm.real : Libm ℝ where
  sqrt := Real.sqrt
  cos := Real.cos
  sin := Real.sin
  atan2 y x := Complex.arg ⟨x, y⟩
  pi := Real.pi

end Defs

section Theorems

set_option linter.unusedSectionVars false

variable {K : Type} [LinearOrderedField K]

/-! ## Helper lemmas -/

lemma chooseBehaviour_validLane (ctx : context_t K) (f : LanesStatus)
    (h : validLane ctx.lane) : validLane (chooseBehaviour ctx f).lane := by
  unfold validLane at h ⊢
  unfold chooseBehaviour
  rcases h with h | h | h <;> simp only [h] <;> split_ifs <;> simp_all

lemma runTicks_validLane (flags : List LanesStatus) (ctx : context_t K)
    (h : validLane ctx.lane) : validLane (runTicks ctx flags).lane := by
  induction flags generalizing ctx with
  | nil => simpa [runTicks] using h
  | cons f fs ih =>
    have := ih (chooseBehaviour ctx f) (chooseBehaviour_validLane ctx f h)
    simpa [runTicks] using this

lemma LanesStatus.or_assoc (a b c : LanesStatus) : (a.or b).or c = a.or (b.or c) := by
  simp [LanesStatus.or, Bool.or_assoc]

lemma LanesStatus.or_comm (a b : LanesStatus) : a.or b = b.or a := by
  simp [LanesStatus.or, Bool.or_comm]

lemma LanesStatus.or_clear (a : LanesStatus) : a.or LanesStatus.clear = a := by
  simp [LanesStatus.or, LanesStatus.clear]

lemma LanesStatus.clear_or (a : LanesStatus) : LanesStatus.clear.or a = a := by
  simp [LanesStatus.or, LanesStatus.clear]

lemma checkCar_or (m : Libm K) (ctx : context_t K) (my_car_s : K) (h : ℤ)
    (st : LanesStatus) (car : SensorCar K) :
    checkCar m ctx my_car_s h st car
      = st.or (checkCar m ctx my_car_s h LanesStatus.clear car) := by
  unfold checkCar
  simp only []
  split_ifs <;> simp [LanesStatus.or, LanesStatus.clear]

lemma foldl_checkCar_or (m : Libm K) (ctx : context_t K) (my_car_s : K) (h : ℤ)
    (cars : List (SensorCar K)) (st : LanesStatus) :
    cars.foldl (checkCar m ctx my_car_s h) st
      = st.or (cars.foldl (checkCar m ctx my_car_s h) LanesStatus.clear) := by
  induction cars generalizing st with
  | nil => simp [LanesStatus.or_clear]
  | cons c cs ih =>
    simp only [List.foldl_cons]
    rw [ih (checkCar m ctx my_car_s h st c),
      ih (checkCar m ctx my_car_s h LanesStatus.clear c),
      checkCar_or m ctx my_car_s h st c, LanesStatus.or_assoc]

lemma checkLanes_append (m : Libm K) (ctx : context_t K) (my_car_s : K) (h : ℤ)
    (A B : List (SensorCar K)) :
    checkLanes m ctx (A ++ B) my_car_s h
      = (checkLanes m ctx A my_car_s h).or (checkLanes m ctx B my_car_s h) := by
  unfold checkLanes
  rw [List.foldl_append]
  exact foldl_checkCar_or m ctx my_car_s h B _

lemma checkLanes_cons (m : Libm K) (ctx : context_t K) (my_car_s : K) (h : ℤ)
    (c : SensorCar K) (B : List (SensorCar K)) :
    checkLanes m ctx (c :: B) my_car_s h
      = (checkCar m ctx my_car_s h LanesStatus.clear c).or
          (checkLanes m ctx B my_car_s h) := by
  have := checkLanes_append m ctx my_car_s h [c] B
  simpa [checkLanes, LanesStatus.clear] using this

lemma checkCar_outside (m : Libm K) (ctx : context_t K) (my_car_s : K) (h : ℤ)
    (st : LanesStatus) (car : SensorCar K) (hd : car.d < 0 ∨ car.d > 12) :
    checkCar m ctx my_car_s h st car = st := by
  have hl : carLane ctx car.d = -1 := by
    unfold carLane context_t.LANE_WIDTH
    rcases hd with hd | hd
    · rw [if_neg (by intro hc; linarith [hc.1]), if_neg (by intro hc; linarith [hc.1]),
        if_neg (by intro hc; linarith [hc.1])]
    · rw [if_neg (by intro hc; linarith [hc.2]), if_neg (by intro hc; linarith [hc.2]),
        if_neg (by intro hc; linarith [hc.2])]
  unfold checkCar
  simp [hl]

lemma fillLoop_appends (m : Libm K) (base_spline : K → K)
    (ref_x ref_y ref_yaw base_step_x steps : K) (n : ℕ) (x : K) (nx ny : List K) :
    ∃ ax ay : List K,
      (fillLoop m base_spline ref_x ref_y ref_yaw base_step_x steps n (x, nx, ny)).2.1
          = nx ++ ax ∧
      (fillLoop m base_spline ref_x ref_y ref_yaw base_step_x steps n (x, nx, ny)).2.2
          = ny ++ ay ∧
      ax.length = n ∧ ay.length = n := by
  induction n generalizing x nx ny with
  | zero => exact ⟨[], [], by simp [fillLoop], by simp [fillLoop], rfl, rfl⟩
  | succ n ih =>
    simp only [fillLoop]
    obtain ⟨ax, ay, h1, h2, h3, h4⟩ := ih (x + base_step_x / steps)
      (nx ++ [((x + base_step_x / steps) * m.cos ref_yaw
        - base_spline (x + base_step_x / steps) * m.sin ref_yaw) + ref_x])
      (ny ++ [((x + base_step_x / steps) * m.sin ref_yaw
        + base_spline (x + base_step_x / steps) * m.cos ref_yaw) + ref_y])
    refine ⟨(((x + base_step_x / steps) * m.cos ref_yaw
        - base_spline (x + base_step_x / steps) * m.sin ref_yaw) + ref_x) :: ax,
      (((x + base_step_x / steps) * m.sin ref_yaw
        + base_spline (x + base_step_x / steps) * m.cos ref_yaw) + ref_y) :: ay,
      ?_, ?_, by simp [h3], by simp [h4]⟩
    · rw [h1, List.append_assoc]; rfl
    · rw [h2, List.append_assoc]; rfl

lemma fillRestOfPath_appends (m : Libm K) (ctx : context_t K) (nx ny : List K)
    (base_spline : K → K) (ref_x ref_y ref_yaw : K) (prediction_length : ℤ) :
    ∃ ax ay : List K,
      fillRestOfPath m ctx nx ny base_spline ref_x ref_y ref_yaw prediction_length
          = (nx ++ ax, ny ++ ay) ∧
      ax.length = (50 - prediction_length).toNat ∧
      ay.length = (50 - prediction_length).toNat := by
  obtain ⟨ax, ay, h1, h2, h3, h4⟩ := fillLoop_appends m base_spline ref_x ref_y ref_yaw
    ctx.PREDICTION_BASE_STEP (fillSteps m ctx base_spline)
    (ctx.N_PREDICTION_POINTS - prediction_length).toNat 0 nx ny
  refine ⟨ax, ay, ?_, h3, h4⟩
  unfold fillRestOfPath
  simp only [h1, h2]

lemma copyLoop_eq (px py : List K) (n i : ℕ) (nx ny : List K)
    (hx : i + n ≤ px.length) (hy : i + n ≤ py.length) :
    copyLoop px py n i (nx, ny)
      = some (nx ++ (px.drop i).take n, ny ++ (py.drop i).take n) := by
  induction n generalizing i nx ny with
  | zero => simp [copyLoop]
  | succ n ih =>
    have hix : i < px.length := by omega
    have hiy : i < py.length := by omega
    simp only [copyLoop, List.getElem?_eq_getElem hix, List.getElem?_eq_getElem hiy,
      Option.bind_eq_bind, Option.some_bind]
    rw [ih (i + 1) _ _ (by omega) (by omega), List.drop_eq_getElem_cons hix,
      List.drop_eq_getElem_cons hiy]
    simp only [List.take_succ_cons, List.append_assoc, List.singleton_append]

lemma copyLoop_all (px py : List K) (h : py.length = px.length) :
    copyLoop px py px.length 0 ([], []) = some (px, py) := by
  rw [copyLoop_eq px py px.length 0 [] [] (by omega) (by omega)]
  simp [← h]

lemma assemblePath_eq (m : Libm K) (ctx : context_t K) (base_spline : K → K)
    (ref_x ref_y ref_yaw : K) (px py : List K) (h : py.length = px.length) :
    assemblePath m ctx base_spline ref_x ref_y ref_yaw px py
      = some (fillRestOfPath m ctx px py base_spline ref_x ref_y ref_yaw
          (px.length : ℤ)) := by
  unfold assemblePath
  rw [copyLoop_all px py h]
  rfl

lemma predictedS_eq (m : Libm K) (ctx : context_t K) (h : ℤ) (car : SensorCar K) :
    predictedS m ctx h car
      = car.s + (h : K) * 0.02 * m.sqrt (car.vx ^ 2 + car.vy ^ 2) := by
  unfold predictedS distance context_t.UPDATE_RATE
  have e : (car.vx - 0) * (car.vx - 0) + (car.vy - 0) * (car.vy - 0)
      = car.vx ^ 2 + car.vy ^ 2 := by ring
  simp only [e]

lemma checkLanes_single_same_lane (m : Libm K) (ctx : context_t K) (my_car_s : K) (h : ℤ)
    (car : SensorCar K) (hl : validLane ctx.lane) (hc : carLane ctx car.d = ctx.lane) :
    checkLanes m ctx [car] my_car_s h
      = { car_close_ahead := decide (predictedS m ctx h car - my_car_s > 0) &&
            decide (predictedS m ctx h car - my_car_s < 30),
          car_to_the_left := false, car_to_the_right := false } := by
  have h0 : ¬ (ctx.lane < 0 ∨ ctx.lane > 2) := by
    unfold validLane at hl; omega
  simp only [checkLanes, List.foldl_cons, List.foldl_nil, checkCar, hc, if_neg h0,
    sub_self, if_true, context_t.SAFE_GAP, Bool.false_or]

lemma globalAnchors_far (m : Libm K) (ctx : context_t K) (car_x car_y car_yaw car_s : K)
    (px py : List K) (mwp_s mwp_x mwp_y : List K) (w1 w2 w3 : K × K)
    (hxy : py.length = px.length)
    (h1 : getXY m (car_s + 30) (((ctx.lane : K) + 0.5) * 4) mwp_s mwp_x mwp_y = some w1)
    (h2 : getXY m (car_s + 60) (((ctx.lane : K) + 0.5) * 4) mwp_s mwp_x mwp_y = some w2)
    (h3 : getXY m (car_s + 90) (((ctx.lane : K) + 0.5) * 4) mwp_s mwp_x mwp_y = some w3) :
    ∃ g : BasePoints K,
      globalAnchors m ctx car_x car_y car_yaw car_s px py mwp_s mwp_x mwp_y = some g ∧
      g.ptsx.length = 5 ∧ g.ptsy.length = 5 ∧
      g.ptsx.drop 2 = [w1.1, w2.1, w3.1] ∧ g.ptsy.drop 2 = [w1.2, w2.2, w3.2] := by
  have e1 : car_s + 1 * ctx.PREDICTION_BASE_STEP = car_s + 30 := by
    unfold context_t.PREDICTION_BASE_STEP; ring
  have e2 : car_s + 2 * ctx.PREDICTION_BASE_STEP = car_s + 60 := by
    unfold context_t.PREDICTION_BASE_STEP; ring
  have e3 : car_s + 3 * ctx.PREDICTION_BASE_STEP = car_s + 90 := by
    unfold context_t.PREDICTION_BASE_STEP; ring
  have e4 : ctx.LANE_WIDTH = 4 := rfl
  unfold globalAnchors
  simp only [e1, e2, e3, e4, h1, h2, h3]
  by_cases hp : ((px.length : ℕ) : ℤ) < 2
  · simp [hp]
  · have hlen : 2 ≤ px.length := by omega
    have r1 : readAt px ((px.length : ℤ) - 1) = some (px[px.length - 1]) := by
      unfold readAt
      rw [if_pos (by omega)]
      have : ((px.length : ℤ) - 1).toNat = px.length - 1 := by omega
      rw [this, List.getElem?_eq_getElem]
    have r2 : readAt px ((px.length : ℤ) - 2) = some (px[px.length - 2]) := by
      unfold readAt
      rw [if_pos (by omega)]
      have : ((px.length : ℤ) - 2).toNat = px.length - 2 := by omega
      rw [this, List.getElem?_eq_getElem]
    have r3 : readAt py ((px.length : ℤ) - 1) = some (py[px.length - 1]) := by
      unfold readAt
      rw [if_pos (by omega)]
      have : ((px.length : ℤ) - 1).toNat = px.length - 1 := by omega
      rw [this, List.getElem?_eq_getElem]
    have r4 : readAt py ((px.length : ℤ) - 2) = some (py[px.length - 2]) := by
      unfold readAt
      rw [if_pos (by omega)]
      have : ((px.length : ℤ) - 2).toNat = px.length - 2 := by omega
      rw [this, List.getElem?_eq_getElem]
    simp [hp, r1, r2, r3, r4]

/-! ## Behaviour decision -/

/-- C1. Lane bounds: `chooseBehaviour` maps a context whose lane is 0, 1 or 2 to a
context whose lane is 0, 1 or 2, for every triple of flags; hence from the initial
context (lane 1, speed 0) the lane is 0, 1 or 2 after any finite sequence of ticks
with arbitrary flags. -/
theorem lane_bounds (ctx : context_t K) (f : LanesStatus) (h : validLane ctx.lane) :
    validLane (chooseBehaviour ctx f).lane ∧
      ∀ flags : List LanesStatus,
        validLane (runTicks (context_t.init : context_t K) flags).lane :=
  ⟨chooseBehaviour_validLane ctx f h,
    fun flags => runTicks_validLane flags _ (Or.inr (Or.inl rfl))⟩

/-- C1, witness: lane 2 with the flags `(true, true, false)`, and the initial context. -/
theorem lane_bounds_witness :
    validLane (2 : ℤ) ∧
      validLane (chooseBehaviour ({ lane := 2, speed := 10 } : context_t ℚ)
        ⟨true, true, false⟩).lane ∧
      ∀ flags : List LanesStatus,
        validLane (runTicks (context_t.init : context_t ℚ) flags).lane :=
  ⟨by decide, lane_bounds ({ lane := 2, speed := 10 } : context_t ℚ) ⟨true, true, false⟩
    (by decide)⟩

/-- C5. Blocked-branch decision: with `blocked_ahead` set and the lane in {0,1,2},
`chooseBehaviour` yields `(lane - 1, speed)` if `lane > 0` and not `unsafe_left`;
otherwise `(lane + 1, speed)` if `lane < 2` and not `unsafe_right`; otherwise
`(lane, speed - MAX_ACC)` with `MAX_ACC = 0.224`. -/
theorem blocked_branch_decision (ctx : context_t K) (f : LanesStatus)
    (_hl : validLane ctx.lane) (hb : f.car_close_ahead = true) :
    chooseBehaviour ctx f =
      if ctx.lane > 0 ∧ f.car_to_the_left = false then
        { lane := ctx.lane - 1, speed := ctx.speed }
      else if ctx.lane < 2 ∧ f.car_to_the_right = false then
        { lane := ctx.lane + 1, speed := ctx.speed }
      else { lane := ctx.lane, speed := ctx.speed - 0.224 } := by
  unfold chooseBehaviour context_t.MAX_ACC
  rw [if_pos hb]
  by_cases h1 : ctx.lane > 0 ∧ f.car_to_the_left = false
  · rw [if_pos h1, if_pos (by simpa using h1.symm)]
  · rw [if_neg h1, if_neg (by simpa using fun a b => h1 ⟨b, a⟩)]
    by_cases h2 : ctx.lane < 2 ∧ f.car_to_the_right = false
    · rw [if_pos h2, if_pos (by simpa using h2.symm)]
    · rw [if_neg h2, if_neg (by simpa using fun a b => h2 ⟨b, a⟩)]

/-- C5, witness: lane 0, blocked ahead with the right lane unsafe, decelerates. -/
theorem blocked_branch_decision_witness :
    chooseBehaviour ({ lane := 0, speed := 20 } : context_t ℚ) ⟨true, false, true⟩ =
      { lane := 0, speed := 20 - 0.224 } := by
  have h := blocked_branch_decision ({ lane := 0, speed := 20 } : context_t ℚ)
    ⟨true, false, true⟩ (by decide) rfl
  simpa using h

/-- C6. Clear-branch decision: with `blocked_ahead` not set and the lane in {0,1,2},
`chooseBehaviour` sets the lane to 1 exactly when (`lane = 2` and not `unsafe_left`)
or (`lane = 0` and not `unsafe_right`), and leaves it unchanged otherwise;
independently the speed becomes `speed + MAX_ACC` (0.224) if `speed < MAX_SPEED`
(49.5) and is unchanged otherwise. -/
theorem clear_branch_decision (ctx : context_t K) (f : LanesStatus)
    (_hl : validLane ctx.lane) (hb : f.car_close_ahead = false) :
    (chooseBehaviour ctx f).lane =
        (if (ctx.lane = 2 ∧ f.car_to_the_left = false) ∨
            (ctx.lane = 0 ∧ f.car_to_the_right = false) then 1 else ctx.lane) ∧
      (chooseBehaviour ctx f).speed =
        (if ctx.speed < 49.5 then ctx.speed + 0.224 else ctx.speed) := by
  unfold chooseBehaviour context_t.MAX_ACC context_t.MAX_SPEED
  simp only [hb]
  constructor <;> split_ifs <;> simp_all

/-- C6, witness: lane 2 at speed 49.5 with a free left lane moves to lane 1 and keeps its
speed. -/
theorem clear_branch_decision_witness :
    (chooseBehaviour ({ lane := 2, speed := 49.5 } : context_t ℚ)
        ⟨false, false, true⟩).lane = 1 ∧
      (chooseBehaviour ({ lane := 2, speed := 49.5 } : context_t ℚ)
        ⟨false, false, true⟩).speed = 49.5 := by
  have h := clear_branch_decision ({ lane := 2, speed := 49.5 } : context_t ℚ)
    ⟨false, false, true⟩ (by decide) rfl
  simpa using h

/-! ## Traffic analysis -/

/-- C7. Out-of-range exclusion: inserting, at any position of any snapshot, a vehicle
whose lateral offset `d` satisfies `d < 0` or `d > 12` (`3 * LANE_WIDTH`), whatever its
`s` and velocity, leaves the three flags returned by `checkLanes` unchanged; and an
offset `d` is classified into lane 0 for `0 ≤ d < 4`, lane 1 for `4 ≤ d < 8` and lane
2 for `8 ≤ d ≤ 12`. -/
theorem out_of_range_exclusion (m : Libm K) (ctx : context_t K) (my_car_s : K) (h : ℤ)
    (A B : List (SensorCar K)) (car : SensorCar K) (hd : car.d < 0 ∨ car.d > 12) :
    checkLanes m ctx (A ++ car :: B) my_car_s h = checkLanes m ctx (A ++ B) my_car_s h ∧
      ∀ d : K, (0 ≤ d ∧ d < 4 → carLane ctx d = 0) ∧ (4 ≤ d ∧ d < 8 → carLane ctx d = 1) ∧
        (8 ≤ d ∧ d ≤ 12 → carLane ctx d = 2) := by
  constructor
  · rw [checkLanes_append, checkLanes_append, checkLanes_cons,
      checkCar_outside m ctx my_car_s h _ car hd, LanesStatus.clear_or]
  · intro d
    unfold carLane context_t.LANE_WIDTH
    refine ⟨fun hd => ?_, fun hd => ?_, fun hd => ?_⟩
    · rw [if_pos ⟨hd.1, hd.2⟩]
    · rw [if_neg (by intro hc; linarith [hc.2, hd.1]),
        if_pos ⟨hd.1, by linarith [hd.2]⟩]
    · rw [if_neg (by intro hc; linarith [hc.2, hd.1]),
        if_neg (by intro hc; linarith [hc.2, hd.1]),
        if_pos ⟨by linarith [hd.1], by linarith [hd.2]⟩]

/-- C7, witness: a vehicle at `d = 12.5` inserted between two others. -/
theorem out_of_range_exclusion_witness :
    checkLanes Libm.sample ({ lane := 1, speed := 0 } : context_t ℚ)
        ([⟨0, 0, 0, 10, 0, 115, 6⟩] ++ ⟨1, 0, 0, 3, 4, 110, 25 / 2⟩ :: [⟨2, 0, 0, 0, 0, 90, 2⟩])
        100 0
      = checkLanes Libm.sample ({ lane := 1, speed := 0 } : context_t ℚ)
        ([⟨0, 0, 0, 10, 0, 115, 6⟩] ++ [⟨2, 0, 0, 0, 0, 90, 2⟩]) 100 0 :=
  (out_of_range_exclusion Libm.sample ({ lane := 1, speed := 0 } : context_t ℚ) 100 0
    [⟨0, 0, 0, 10, 0, 115, 6⟩] [⟨2, 0, 0, 0, 0, 90, 2⟩] ⟨1, 0, 0, 3, 4, 110, 25 / 2⟩
    (Or.inr (by norm_num))).1

/-- C8. OR-accumulation: the flags of `checkLanes` on a concatenated snapshot are the
component-wise disjunction of its flags on the two parts, the flags of the empty
snapshot are all `false`, and the flags do not depend on the order of the vehicles. -/
theorem or_accumulation (m : Libm K) (ctx : context_t K) (my_car_s : K) (h : ℤ)
    (A B : List (SensorCar K)) :
    checkLanes m ctx (A ++ B) my_car_s h
        = { car_close_ahead := (checkLanes m ctx A my_car_s h).car_close_ahead ||
              (checkLanes m ctx B my_car_s h).car_close_ahead,
            car_to_the_left := (checkLanes m ctx A my_car_s h).car_to_the_left ||
              (checkLanes m ctx B my_car_s h).car_to_the_left,
            car_to_the_right := (checkLanes m ctx A my_car_s h).car_to_the_right ||
              (checkLanes m ctx B my_car_s h).car_to_the_right } ∧
      checkLanes m ctx [] my_car_s h
        = { car_close_ahead := false, car_to_the_left := false,
            car_to_the_right := false } ∧
      ∀ C : List (SensorCar K), List.Perm A C →
        checkLanes m ctx A my_car_s h = checkLanes m ctx C my_car_s h := by
  refine ⟨checkLanes_append m ctx my_car_s h A B, rfl, ?_⟩
  intro C hp
  induction hp with
  | nil => rfl
  | cons c _ ih => rw [checkLanes_cons, checkLanes_cons, ih]
  | swap a b l =>
    rw [checkLanes_cons, checkLanes_cons, checkLanes_cons, checkLanes_cons,
      ← LanesStatus.or_assoc, ← LanesStatus.or_assoc,
      LanesStatus.or_comm (checkCar m ctx my_car_s h LanesStatus.clear b)]
  | trans _ _ ih1 ih2 => rw [ih1, ih2]

/-- C8, witness: one vehicle ahead in lane 1 and one beside in lane 0, in both orders. -/
theorem or_accumulation_witness :
    checkLanes Libm.sample ({ lane := 1, speed := 0 } : context_t ℚ)
        ([⟨0, 0, 0, 10, 0, 115, 6⟩] ++ [⟨1, 0, 0, 0, 0, 90, 2⟩]) 100 0
      = { car_close_ahead := true, car_to_the_left := true, car_to_the_right := false } ∧
    checkLanes Libm.sample ({ lane := 1, speed := 0 } : context_t ℚ)
        [⟨0, 0, 0, 10, 0, 115, 6⟩, ⟨1, 0, 0, 0, 0, 90, 2⟩] 100 0
      = checkLanes Libm.sample ({ lane := 1, speed := 0 } : context_t ℚ)
        [⟨1, 0, 0, 0, 0, 90, 2⟩, ⟨0, 0, 0, 10, 0, 115, 6⟩] 100 0 := by
  have h := or_accumulation Libm.sample ({ lane := 1, speed := 0 } : context_t ℚ) 100 0
    [⟨0, 0, 0, 10, 0, 115, 6⟩] [⟨1, 0, 0, 0, 0, 90, 2⟩]
  constructor
  · rw [h.1]
    norm_num [checkLanes, checkCar, carLane, predictedS, context_t.LANE_WIDTH,
      context_t.SAFE_GAP]
  · have hp := (or_accumulation Libm.sample ({ lane := 1, speed := 0 } : context_t ℚ) 100 0
      [⟨0, 0, 0, 10, 0, 115, 6⟩, ⟨1, 0, 0, 0, 0, 90, 2⟩] []).2.2
      [⟨1, 0, 0, 0, 0, 90, 2⟩, ⟨0, 0, 0, 10, 0, 115, 6⟩] (List.Perm.swap _ _ _)
    exact hp

/-! ## Path assembly -/

/-- C2. Output cardinality: for every previous path of length `h` with `0 ≤ h ≤ 50`
(`N_PREDICTION_POINTS`), every vehicle state and every fitted curve, the path assembly
of a tick (copy of the previous path, then `fillRestOfPath`) returns, and the
sequences `next_x` and `next_y` it returns both have length exactly 50. -/
theorem output_cardinality (m : Libm K) (ctx : context_t K) (base_spline : K → K)
    (ref_x ref_y ref_yaw : K) (previous_path_x previous_path_y : List K)
    (hxy : previous_path_y.length = previous_path_x.length)
    (h50 : previous_path_x.length ≤ 50) :
    ∃ next_x next_y : List K,
      assemblePath m ctx base_spline ref_x ref_y ref_yaw previous_path_x previous_path_y
          = some (next_x, next_y) ∧
      next_x.length = 50 ∧ next_y.length = 50 := by
  obtain ⟨ax, ay, h1, h2, h3⟩ := fillRestOfPath_appends m ctx previous_path_x
    previous_path_y base_spline ref_x ref_y ref_yaw (previous_path_x.length : ℤ)
  refine ⟨previous_path_x ++ ax, previous_path_y ++ ay, ?_, ?_, ?_⟩
  · rw [assemblePath_eq m ctx base_spline ref_x ref_y ref_yaw _ _ hxy, h1]
  · rw [List.length_append, h2]; omega
  · rw [List.length_append, h3, hxy]; omega

/-- C2, witness: a previous path of three points. -/
theorem output_cardinality_witness :
    ∃ next_x next_y : List ℚ,
      assemblePath Libm.sample ({ lane := 1, speed := 10 } : context_t ℚ) (fun x => x / 10)
          5 7 0 [1, 2, 3] [4, 5, 6] = some (next_x, next_y) ∧
      next_x.length = 50 ∧ next_y.length = 50 :=
  output_cardinality Libm.sample ({ lane := 1, speed := 10 } : context_t ℚ)
    (fun x => x / 10) 5 7 0 [1, 2, 3] [4, 5, 6] rfl (by decide)

/-- C3. Trajectory continuity: for every previous path of length `h` supplied to a
tick, the path assembly returns sequences whose first `h` elements are, in order, the
previous-path points; and `fillRestOfPath` only appends to `next_x_vals` and
`next_y_vals`: the vectors it is given are kept as the leading part of its result. -/
theorem trajectory_continuity (m : Libm K) (ctx : context_t K) (base_spline : K → K)
    (ref_x ref_y ref_yaw : K) (previous_path_x previous_path_y : List K)
    (hxy : previous_path_y.length = previous_path_x.length) :
    (∃ next_x next_y : List K,
      assemblePath m ctx base_spline ref_x ref_y ref_yaw previous_path_x previous_path_y
          = some (next_x, next_y) ∧
      next_x.take previous_path_x.length = previous_path_x ∧
      next_y.take previous_path_x.length = previous_path_y ∧
      ∀ i : ℕ, i < previous_path_x.length →
        next_x[i]? = previous_path_x[i]? ∧ next_y[i]? = previous_path_y[i]?) ∧
    ∀ (next_x_vals next_y_vals : List K) (prediction_length : ℤ),
      ∃ added_x added_y : List K,
        fillRestOfPath m ctx next_x_vals next_y_vals base_spline ref_x ref_y ref_yaw
          prediction_length = (next_x_vals ++ added_x, next_y_vals ++ added_y) := by
  constructor
  · obtain ⟨ax, ay, h1, _, _⟩ := fillRestOfPath_appends m ctx previous_path_x
      previous_path_y base_spline ref_x ref_y ref_yaw (previous_path_x.length : ℤ)
    refine ⟨previous_path_x ++ ax, previous_path_y ++ ay, ?_, ?_, ?_, ?_⟩
    · rw [assemblePath_eq m ctx base_spline ref_x ref_y ref_yaw _ _ hxy, h1]
    · simp
    · rw [← hxy]; simp
    · intro i hi
      rw [List.getElem?_append_left hi, List.getElem?_append_left (by omega)]
      exact ⟨rfl, rfl⟩
  · intro nx ny pl
    obtain ⟨ax, ay, h1, _, _⟩ := fillRestOfPath_appends m ctx nx ny base_spline
      ref_x ref_y ref_yaw pl
    exact ⟨ax, ay, h1⟩

/-- C3, witness: a previous path of three points. -/
theorem trajectory_continuity_witness :
    ∃ next_x next_y : List ℚ,
      assemblePath Libm.sample ({ lane := 1, speed := 10 } : context_t ℚ) (fun x => x / 10)
          5 7 0 [1, 2, 3] [4, 5, 6] = some (next_x, next_y) ∧
      next_x.take 3 = [1, 2, 3] ∧ next_y.take 3 = [4, 5, 6] ∧
      ∀ i : ℕ, i < 3 → next_x[i]? = [1, 2, 3][i]? ∧ next_y[i]? = [4, 5, 6][i]? :=
  (trajectory_continuity Libm.sample ({ lane := 1, speed := 10 } : context_t ℚ)
    (fun x => x / 10) 5 7 0 [1, 2, 3] [4, 5, 6] rfl).1

/-! ## Safety threshold -/

/-- C4, counterexample. With `eps = 30 > 0`, ego lane 1 at `s_ego = 100` and one
stationary vehicle in lane 1 (`d = 6`) whose predicted position is
`100 = s_ego + SAFE_GAP - eps`, `checkLanes` returns `blocked_ahead = false`: the
vehicle is not ahead of the ego vehicle. -/
theorem safety_threshold_counterexample :
    (0 : ℚ) < 30 ∧
      validLane ({ lane := 1, speed := 0 } : context_t ℚ).lane ∧
      carLane ({ lane := 1, speed := 0 } : context_t ℚ) 6 = 1 ∧
      predictedS Libm.sample ({ lane := 1, speed := 0 } : context_t ℚ) 0
        ⟨0, 0, 0, 0, 0, 100, 6⟩ = 100 + 30 - 30 ∧
      (checkLanes Libm.sample ({ lane := 1, speed := 0 } : context_t ℚ)
        [⟨0, 0, 0, 0, 0, 100, 6⟩] 100 0).car_close_ahead = false := by
  refine ⟨by norm_num, by decide, ?_, ?_, ?_⟩
  · norm_num [carLane, context_t.LANE_WIDTH]
  · norm_num [predictedS]
  · rw [checkLanes_single_same_lane _ _ _ _ _ (by decide)
      (by norm_num [carLane, context_t.LANE_WIDTH])]
    norm_num [predictedS]

/-- C4, amended. For every ego lane in {0,1,2}, every ego position `s_ego` and a
snapshot of exactly one vehicle classified in the ego lane: when its predicted
position `s + h * UPDATE_RATE * sqrt(vx^2 + vy^2)` is `s_ego + SAFE_GAP - eps` with
`0 < eps < SAFE_GAP` (30), `checkLanes` returns `blocked_ahead = true`; when it is
`s_ego + SAFE_GAP + eps` with `eps > 0`, it returns `blocked_ahead = false`. -/
theorem safety_threshold (m : Libm K) (ctx : context_t K) (s_ego eps : K) (h : ℤ)
    (car : SensorCar K) (hl : validLane ctx.lane) (hc : carLane ctx car.d = ctx.lane)
    (he : 0 < eps) :
    (eps < 30 →
        car.s + (h : K) * 0.02 * m.sqrt (car.vx ^ 2 + car.vy ^ 2) = s_ego + 30 - eps →
        (checkLanes m ctx [car] s_ego h).car_close_ahead = true) ∧
      (car.s + (h : K) * 0.02 * m.sqrt (car.vx ^ 2 + car.vy ^ 2) = s_ego + 30 + eps →
        (checkLanes m ctx [car] s_ego h).car_close_ahead = false) := by
  rw [checkLanes_single_same_lane m ctx s_ego h car hl hc, predictedS_eq]
  constructor
  · intro he30 hp
    rw [hp]
    simp only [Bool.and_eq_true, decide_eq_true_eq]
    constructor <;> linarith
  · intro hp
    rw [hp]
    simp only [Bool.and_eq_false_imp, decide_eq_true_eq, decide_eq_false_iff_not]
    intro _
    linarith

/-- C4, witness: `eps = 1`, predicted positions 129 and 131 for `s_ego = 100`. -/
theorem safety_threshold_witness :
    (checkLanes Libm.sample ({ lane := 1, speed := 0 } : context_t ℚ)
        [⟨0, 0, 0, 10, 0, 129, 6⟩] 100 0).car_close_ahead = true ∧
      (checkLanes Libm.sample ({ lane := 1, speed := 0 } : context_t ℚ)
        [⟨0, 0, 0, 10, 0, 131, 6⟩] 100 0).car_close_ahead = false :=
  ⟨(safety_threshold Libm.sample ({ lane := 1, speed := 0 } : context_t ℚ) 100 1 0
      ⟨0, 0, 0, 10, 0, 129, 6⟩ (by decide) (by norm_num [carLane, context_t.LANE_WIDTH])
      (by norm_num)).1 (by norm_num) (by norm_num),
    (safety_threshold Libm.sample ({ lane := 1, speed := 0 } : context_t ℚ) 100 1 0
      ⟨0, 0, 0, 10, 0, 131, 6⟩ (by decide) (by norm_num [carLane, context_t.LANE_WIDTH])
      (by norm_num)).2 (by norm_num)⟩

/-! ## The lane-change scenario -/

/-- C9. Spec scenario, generalised: for an ego lane in {1,2}, `h ≥ 0` and a snapshot of
exactly one vehicle classified in the ego lane whose predicted gap
`s + h * UPDATE_RATE * sqrt(vx^2 + vy^2) - car_s` is strictly between 0 and `SAFE_GAP`
(30), `checkLanes` returns `(true, false, false)` and `chooseBehaviour` then decrements
the lane by one, keeping the speed.  With the new lane `lane - 1`, whenever `getXY`
returns `w_k` at `(car_s + 30k, (lane - 1 + 0.5) * LANE_WIDTH)` for `k = 1, 2, 3`, the
three far anchors that `buildPointsForBaseSpline` adds after the first two are `w_1`,
`w_2`, `w_3`, and it returns them converted to the reference frame. -/
theorem scenario_lane_change (m : Libm K) (ctx : context_t K) (car_s : K) (h : ℤ)
    (car : SensorCar K) (hl : ctx.lane = 1 ∨ ctx.lane = 2) (_hh : 0 ≤ h)
    (hc : carLane ctx car.d = ctx.lane)
    (hg0 : 0 < car.s + (h : K) * 0.02 * m.sqrt (car.vx ^ 2 + car.vy ^ 2) - car_s)
    (hg1 : car.s + (h : K) * 0.02 * m.sqrt (car.vx ^ 2 + car.vy ^ 2) - car_s < 30) :
    checkLanes m ctx [car] car_s h
        = { car_close_ahead := true, car_to_the_left := false,
            car_to_the_right := false } ∧
      chooseBehaviour ctx (checkLanes m ctx [car] car_s h)
        = { lane := ctx.lane - 1, speed := ctx.speed } ∧
      ∀ (car_x car_y car_yaw : K) (px py mwp_s mwp_x mwp_y : List K) (w1 w2 w3 : K × K),
        py.length = px.length →
        getXY m (car_s + 30) ((((ctx.lane - 1 : ℤ) : K) + 0.5) * 4) mwp_s mwp_x mwp_y
          = some w1 →
        getXY m (car_s + 60) ((((ctx.lane - 1 : ℤ) : K) + 0.5) * 4) mwp_s mwp_x mwp_y
          = some w2 →
        getXY m (car_s + 90) ((((ctx.lane - 1 : ℤ) : K) + 0.5) * 4) mwp_s mwp_x mwp_y
          = some w3 →
        ∃ g pts : BasePoints K,
          globalAnchors m (chooseBehaviour ctx (checkLanes m ctx [car] car_s h))
            car_x car_y car_yaw car_s px py mwp_s mwp_x mwp_y = some g ∧
          g.ptsx.drop 2 = [w1.1, w2.1, w3.1] ∧ g.ptsy.drop 2 = [w1.2, w2.2, w3.2] ∧
          buildPointsForBaseSpline m (chooseBehaviour ctx (checkLanes m ctx [car] car_s h))
            car_x car_y car_yaw car_s px py mwp_s mwp_x mwp_y = some pts ∧
          pts.ptsx.drop 2 = [(toCarFrame m pts.ref_x pts.ref_y pts.ref_yaw w1.1 w1.2).1,
            (toCarFrame m pts.ref_x pts.ref_y pts.ref_yaw w2.1 w2.2).1,
            (toCarFrame m pts.ref_x pts.ref_y pts.ref_yaw w3.1 w3.2).1] ∧
          pts.ptsy.drop 2 = [(toCarFrame m pts.ref_x pts.ref_y pts.ref_yaw w1.1 w1.2).2,
            (toCarFrame m pts.ref_x pts.ref_y pts.ref_yaw w2.1 w2.2).2,
            (toCarFrame m pts.ref_x pts.ref_y pts.ref_yaw w3.1 w3.2).2] := by
  have hv : validLane ctx.lane := by
    unfold validLane; omega
  have hflags : checkLanes m ctx [car] car_s h
      = { car_close_ahead := true, car_to_the_left := false,
          car_to_the_right := false } := by
    rw [checkLanes_single_same_lane m ctx car_s h car hv hc, predictedS_eq]
    simp [hg0, hg1]
  have hstep : chooseBehaviour ctx (checkLanes m ctx [car] car_s h)
      = { lane := ctx.lane - 1, speed := ctx.speed } := by
    rw [hflags]
    unfold chooseBehaviour
    have hpos : ctx.lane > 0 := by omega
    simp [hpos]
  refine ⟨hflags, hstep, ?_⟩
  intro car_x car_y car_yaw px py mwp_s mwp_x mwp_y w1 w2 w3 hxy h1 h2 h3
  rw [hstep]
  obtain ⟨g, hg, _, _, hgx, hgy⟩ := globalAnchors_far m
    ({ lane := ctx.lane - 1, speed := ctx.speed } : context_t K) car_x car_y car_yaw car_s
    px py mwp_s mwp_x mwp_y w1 w2 w3 hxy h1 h2 h3
  refine ⟨g, { g with
      ptsx := List.zipWith (fun x y => (toCarFrame m g.ref_x g.ref_y g.ref_yaw x y).1)
        g.ptsx g.ptsy,
      ptsy := List.zipWith (fun x y => (toCarFrame m g.ref_x g.ref_y g.ref_yaw x y).2)
        g.ptsx g.ptsy }, hg, hgx, hgy, ?_, ?_, ?_⟩
  · unfold buildPointsForBaseSpline
    rw [hg]
    rfl
  · simp only [List.drop_zipWith, hgx, hgy, List.zipWith_cons_cons, List.zipWith_nil_left]
  · simp only [List.drop_zipWith, hgx, hgy, List.zipWith_cons_cons, List.zipWith_nil_left]

/-- C9, witness: the scenario of the specification, ego `(s = 100, lane = 1, speed = 0)`,
one vehicle `(s = 115, d = 6, vx = 10, vy = 0)`, `h = 0`: the lane becomes 0 and the
anchor offset `(lane + 0.5) * LANE_WIDTH` is 2. -/
theorem scenario_lane_change_witness :
    checkLanes Libm.sample ({ lane := 1, speed := 0 } : context_t ℚ)
        [⟨0, 0, 0, 10, 0, 115, 6⟩] 100 0
      = { car_close_ahead := true, car_to_the_left := false, car_to_the_right := false } ∧
    chooseBehaviour ({ lane := 1, speed := 0 } : context_t ℚ)
        { car_close_ahead := true, car_to_the_left := false, car_to_the_right := false }
      = { lane := 0, speed := 0 } ∧
    ((((1 - 1 : ℤ) : ℚ) + 0.5) * 4 = 2) := by
  have h := scenario_lane_change Libm.sample ({ lane := 1, speed := 0 } : context_t ℚ)
    100 0 ⟨0, 0, 0, 10, 0, 115, 6⟩ (Or.inl rfl) (le_refl 0)
    (by norm_num [carLane, context_t.LANE_WIDTH]) (by norm_num) (by norm_num)
  refine ⟨h.1, ?_, by norm_num⟩
  have h2 := h.2.1
  rw [h.1] at h2
  simpa using h2

/-! ## The divisor of `fillRestOfPath` -/

lemma chooseBehaviour_speed_cases (ctx : context_t K) (f : LanesStatus) :
    (chooseBehaviour ctx f).speed = ctx.speed ∨
      (chooseBehaviour ctx f).speed = ctx.speed - 0.224 ∨
      (ctx.speed < 49.5 ∧ (chooseBehaviour ctx f).speed = ctx.speed + 0.224) := by
  unfold chooseBehaviour context_t.MAX_ACC context_t.MAX_SPEED
  by_cases hb : f.car_close_ahead = true
  · simp only [hb, if_true]
    split_ifs
    · exact Or.inl rfl
    · exact Or.inl rfl
    · exact Or.inr (Or.inl rfl)
  · simp only [hb]
    by_cases hc : (ctx.lane = 2 ∧ (!f.car_to_the_left) = true) ∨
        (ctx.lane = 0 ∧ (!f.car_to_the_right) = true)
    · by_cases hs : ctx.speed < 49.5
      · simp only [if_pos hc, if_pos hs]
        exact Or.inr (Or.inr ⟨hs, rfl⟩)
      · simp only [if_pos hc, if_neg hs]
        exact Or.inl rfl
    · by_cases hs : ctx.speed < 49.5
      · simp only [if_neg hc, if_pos hs]
        exact Or.inr (Or.inr ⟨hs, rfl⟩)
      · simp only [if_neg hc, if_neg hs]
        exact Or.inl rfl

lemma chooseBehaviour_speed_lt (ctx : context_t K) (f : LanesStatus)
    (h : ctx.speed < 49.724) : (chooseBehaviour ctx f).speed < 49.724 := by
  rcases chooseBehaviour_speed_cases ctx f with e | e | ⟨hs, e⟩
  · rw [e]; exact h
  · rw [e]; norm_num at h ⊢; linarith
  · rw [e]; norm_num at hs ⊢; linarith

lemma runTicks_speed_lt (flags : List LanesStatus) (ctx : context_t K)
    (h : ctx.speed < 49.724) : (runTicks ctx flags).speed < 49.724 := by
  induction flags generalizing ctx with
  | nil => simpa [runTicks] using h
  | cons f fs ih =>
    have := ih (chooseBehaviour ctx f) (chooseBehaviour_speed_lt ctx f h)
    simpa [runTicks] using this

lemma runTicks_replicate_clear (n : ℕ) (hn : n ≤ 221) :
    runTicks (context_t.init : context_t K) (List.replicate n LanesStatus.clear)
      = { lane := 1, speed := (n : K) * 0.224 } := by
  induction n with
  | zero => simp [runTicks, context_t.init]
  | succ n ih =>
    have hlt : ((n : K) * 0.224) < 49.5 := by
      have h1 : (n : K) ≤ 220 := by
        have : n ≤ 220 := by omega
        exact_mod_cast this
      linarith
    rw [List.replicate_succ', runTicks, List.foldl_append]
    have ih2 := ih (by omega)
    rw [runTicks] at ih2
    rw [ih2]
    simp only [List.foldl_cons, List.foldl_nil, chooseBehaviour, LanesStatus.clear,
      context_t.MAX_SPEED, context_t.MAX_ACC]
    have e1 : ¬ ((1 : ℤ) = 2 ∧ (!false) = true ∨ (1 : ℤ) = 0 ∧ (!false) = true) := by decide
    rw [if_neg (by decide), if_neg e1, if_pos hlt]
    congr 1
    push_cast
    ring

/-- C17. One step per tick: for every context with lane in {0,1,2}, every speed and
every flag triple, one call of `chooseBehaviour` changes the lane by at most 1 in
absolute value and changes the speed by 0 or by exactly `MAX_ACC` (0.224) in absolute
value. -/
theorem one_step_per_tick (ctx : context_t K) (f : LanesStatus) (hl : validLane ctx.lane) :
    |(chooseBehaviour ctx f).lane - ctx.lane| ≤ 1 ∧
      (|(chooseBehaviour ctx f).speed - ctx.speed| = 0 ∨
        |(chooseBehaviour ctx f).speed - ctx.speed| = 0.224) := by
  have h224 : |(0.224 : K)| = 0.224 := abs_of_pos (by norm_num)
  unfold validLane at hl
  unfold chooseBehaviour context_t.MAX_ACC context_t.MAX_SPEED
  constructor
  · rcases hl with h | h | h <;> simp only [h] <;> split_ifs <;> simp_all
  · rcases chooseBehaviour_speed_cases ctx f with e | e | ⟨_, e⟩
    · left
      unfold chooseBehaviour context_t.MAX_ACC context_t.MAX_SPEED at e
      rw [e]; simp
    · right
      unfold chooseBehaviour context_t.MAX_ACC context_t.MAX_SPEED at e
      rw [e]
      have : ctx.speed - 0.224 - ctx.speed = -(0.224 : K) := by ring
      rw [this, abs_neg, h224]
    · right
      unfold chooseBehaviour context_t.MAX_ACC context_t.MAX_SPEED at e
      rw [e]
      have : ctx.speed + 0.224 - ctx.speed = (0.224 : K) := by ring
      rw [this, h224]

/-- C17, witness: lane 2 at speed 10 with a clear lane ahead and a free left lane. -/
theorem one_step_per_tick_witness :
    |(chooseBehaviour ({ lane := 2, speed := 10 } : context_t ℚ) ⟨false, false, false⟩).lane
        - 2| ≤ 1 ∧
      (|(chooseBehaviour ({ lane := 2, speed := 10 } : context_t ℚ)
          ⟨false, false, false⟩).speed - 10| = 0 ∨
        |(chooseBehaviour ({ lane := 2, speed := 10 } : context_t ℚ)
          ⟨false, false, false⟩).speed - 10| = 0.224) :=
  one_step_per_tick ({ lane := 2, speed := 10 } : context_t ℚ) ⟨false, false, false⟩
    (by decide)

/-- C18. No speed floor: from the initial context (lane 1, speed 0) a single tick with
`blocked_ahead`, `unsafe_left` and `unsafe_right` all set gives the speed `-MAX_ACC`
(-0.224); so some finite sequence of flag triples leads to a negative speed. -/
theorem no_speed_floor :
    (runTicks (context_t.init : context_t K) [⟨true, true, true⟩]).speed
        = -(context_t.init : context_t K).MAX_ACC ∧
      ∃ flags : List LanesStatus, (runTicks (context_t.init : context_t K) flags).speed < 0 := by
  have h : (runTicks (context_t.init : context_t K) [⟨true, true, true⟩]).speed
      = -(context_t.init : context_t K).MAX_ACC := by
    simp [runTicks, chooseBehaviour, context_t.init]
  refine ⟨h, [⟨true, true, true⟩], ?_⟩
  rw [h]
  unfold context_t.MAX_ACC
  norm_num

/-- C19. Never into a flagged lane: for every context with lane in {0,1,2} and every
flag triple, if `chooseBehaviour` moves one lane to the left (`lane - 1`) then
`unsafe_left` was false, and if it moves one lane to the right (`lane + 1`) then
`unsafe_right` was false, in the blocked branch and in the recentering branch alike. -/
theorem never_into_flagged_lane (ctx : context_t K) (f : LanesStatus)
    (hl : validLane ctx.lane) :
    ((chooseBehaviour ctx f).lane = ctx.lane - 1 → f.car_to_the_left = false) ∧
      ((chooseBehaviour ctx f).lane = ctx.lane + 1 → f.car_to_the_right = false) := by
  unfold validLane at hl
  unfold chooseBehaviour
  constructor
  · rcases hl with h | h | h <;> simp only [h] <;> split_ifs <;> simp_all
  · rcases hl with h | h | h <;> simp only [h] <;> split_ifs <;> simp_all

/-- C19, witness: lane 2, blocked ahead, the left lane free: the move to lane 1 is a
move to the left and `unsafe_left` is false. -/
theorem never_into_flagged_lane_witness :
    (chooseBehaviour ({ lane := 2, speed := 10 } : context_t ℚ) ⟨true, false, true⟩).lane
        = 2 - 1 ∧
      (⟨true, false, true⟩ : LanesStatus).car_to_the_left = false := by
  have h := never_into_flagged_lane ({ lane := 2, speed := 10 } : context_t ℚ)
    ⟨true, false, true⟩ (by decide)
  have e : (chooseBehaviour ({ lane := 2, speed := 10 } : context_t ℚ)
      ⟨true, false, true⟩).lane = 2 - 1 := by
    simp [chooseBehaviour]
  exact ⟨e, h.1 e⟩

/-- C20. Speed ceiling: for every context with `speed < MAX_SPEED + MAX_ACC` (49.724)
and every flag triple, `chooseBehaviour` yields a speed below 49.724; hence from the
initial speed 0 the speed stays strictly below 49.724 after any number of ticks.  It
is not bounded by `MAX_SPEED` (49.5): 221 ticks with all flags false give 49.504. -/
theorem speed_ceiling (ctx : context_t K) (f : LanesStatus)
    (h : ctx.speed < ctx.MAX_SPEED + ctx.MAX_ACC) :
    (chooseBehaviour ctx f).speed < 49.724 ∧
      (∀ flags : List LanesStatus,
        (runTicks (context_t.init : context_t K) flags).speed < 49.724) ∧
      (runTicks (context_t.init : context_t K)
        (List.replicate 221 ⟨false, false, false⟩)).speed = 49.504 ∧
      ∃ flags : List LanesStatus,
        (runTicks (context_t.init : context_t K) flags).speed > 49.5 := by
  have h221 : (runTicks (context_t.init : context_t K)
      (List.replicate 221 ⟨false, false, false⟩)).speed = 49.504 := by
    have := runTicks_replicate_clear (K := K) 221 (le_refl _)
    unfold LanesStatus.clear at this
    rw [this]
    norm_num
  refine ⟨chooseBehaviour_speed_lt ctx f ?_, fun flags => runTicks_speed_lt flags _ ?_,
    h221, List.replicate 221 ⟨false, false, false⟩, ?_⟩
  · unfold context_t.MAX_SPEED context_t.MAX_ACC at h
    norm_num at h ⊢
    exact h
  · unfold context_t.init
    norm_num
  · rw [h221]
    norm_num

/-- C20, witness: speed 49.6, above `MAX_SPEED` and below the ceiling, lane ahead
clear. -/
theorem speed_ceiling_witness :
    (chooseBehaviour ({ lane := 1, speed := 49.6 } : context_t ℚ)
        ⟨false, false, false⟩).speed < 49.724 :=
  (speed_ceiling ({ lane := 1, speed := 49.6 } : context_t ℚ) ⟨false, false, false⟩
    (by norm_num [context_t.MAX_SPEED, context_t.MAX_ACC])).1

/-! ## Index safety of `getXY` -/

lemma getXY_scan_nat (maps_s : List K) (s : K) (j : ℕ) :
    getXY_scan maps_s s ((j : ℤ) - 1) =
      if h : j < maps_s.length then
        (if s > maps_s[j] ∧ (j : ℤ) - 1 < (maps_s.length : ℤ) - 1 then
          getXY_scan maps_s s (((j + 1 : ℕ) : ℤ) - 1)
        else some ((j : ℤ) - 1))
      else none := by
  rw [getXY_scan]
  have e : ((j : ℤ) - 1 + 1).toNat = j := by omega
  by_cases h : j < maps_s.length
  · have h1 : 0 ≤ (j : ℤ) - 1 + 1 ∧ ((j : ℤ) - 1 + 1).toNat < maps_s.length := by
      constructor <;> omega
    rw [dif_pos h1, dif_pos h]
    simp only [e]
    have e2 : (j : ℤ) - 1 + 1 = ((j + 1 : ℕ) : ℤ) - 1 := by push_cast; ring
    have e3 := congrArg (getXY_scan maps_s s) e2
    simp only [e3]
  · have h1 : ¬ (0 ≤ (j : ℤ) - 1 + 1 ∧ ((j : ℤ) - 1 + 1).toNat < maps_s.length) := by
      intro hc; omega
    rw [dif_neg h1, dif_neg h]

lemma getXY_scan_all_lt (maps_s : List K) (s : K) (hall : ∀ v ∈ maps_s, v < s) :
    ∀ k j : ℕ, j + k = maps_s.length → getXY_scan maps_s s ((j : ℤ) - 1) = none := by
  intro k
  induction k with
  | zero =>
    intro j hj
    rw [getXY_scan_nat, dif_neg (by omega)]
  | succ k ih =>
    intro j hj
    have hlt : j < maps_s.length := by omega
    rw [getXY_scan_nat, dif_pos hlt,
      if_pos ⟨hall _ (List.getElem_mem _), by omega⟩]
    exact ih (j + 1) (by omega)

lemma getXY_scan_le_first (maps_s : List K) (s v0 : K) (h0 : maps_s[0]? = some v0)
    (hs : s ≤ v0) : getXY_scan maps_s s (-1) = some (-1) := by
  have hlen : 0 < maps_s.length := by
    rcases List.getElem?_eq_some_iff.mp h0 with ⟨h, _⟩
    exact h
  have hv : maps_s[0] = v0 := by
    rcases List.getElem?_eq_some_iff.mp h0 with ⟨_, h⟩
    exact h
  have := getXY_scan_nat maps_s s 0
  simp only [Nat.cast_zero, zero_sub] at this
  rw [this, dif_pos hlen, if_neg]
  rw [hv]
  intro hc
  exact absurd hc.1 (not_lt.mpr hs)

/-- C11. Index safety of `getXY`, evaluated on the code.  For a non-empty `maps_s` and
a query `s` beyond every waypoint, the scan loop reaches `prev_wp = n - 1` and
evaluates its condition once more there, reading `maps_s[n]` before it compares
`prev_wp` with `n - 1`: the read is outside the vector (`none`).  For a query `s` not
above `maps_s[0]` the loop leaves `prev_wp = -1`, and `maps_x[prev_wp]` is read at
index `-1`. -/
theorem getXY_index_out_of_range (m : Libm K) (s d : K) (maps_s maps_x maps_y : List K)
    (hne : maps_s ≠ []) :
    ((∀ v ∈ maps_s, v < s) →
        getXY_scan maps_s s (-1) = getXY_scan maps_s s ((maps_s.length : ℤ) - 1) ∧
        readAt maps_s (((maps_s.length : ℤ) - 1) + 1) = none ∧
        getXY_scan maps_s s ((maps_s.length : ℤ) - 1) = none ∧
        getXY m s d maps_s maps_x maps_y = none) ∧
      ((∀ v0, maps_s[0]? = some v0 → s ≤ v0) →
        getXY_scan maps_s s (-1) = some (-1) ∧
        readAt maps_x (-1) = none ∧
        getXY m s d maps_s maps_x maps_y = none) := by
  constructor
  · intro hall
    have h1 : getXY_scan maps_s s (-1) = none := by
      have := getXY_scan_all_lt maps_s s hall maps_s.length 0 (by omega)
      simpa using this
    have h2 : getXY_scan maps_s s ((maps_s.length : ℤ) - 1) = none :=
      getXY_scan_all_lt maps_s s hall 0 maps_s.length (by omega)
    refine ⟨by rw [h1, h2], ?_, h2, ?_⟩
    · unfold readAt
      rw [if_pos (by omega)]
      have : ((maps_s.length : ℤ) - 1 + 1).toNat = maps_s.length := by omega
      rw [this]
      simp
    · unfold getXY
      rw [h1]
      rfl
  · intro hfirst
    obtain ⟨v0, rest, hcons⟩ := List.exists_cons_of_ne_nil hne
    have h0 : maps_s[0]? = some v0 := by rw [hcons]; simp
    have h1 := getXY_scan_le_first maps_s s v0 h0 (hfirst v0 h0)
    have h2 : ∀ v : List K, readAt v (-1) = none := by
      intro v
      unfold readAt
      rw [if_neg (by omega)]
    refine ⟨h1, h2 _, ?_⟩
    unfold getXY
    rw [h1]
    by_cases hx : maps_x.length = 0
    · simp [hx]
    · cases hr : readAt maps_y ((-1 + 1) % (maps_x.length : ℤ)) <;>
        simp [hx, hr, h2]

/-- C11, at the failing inputs: a map of two waypoints with `maps_s = [0, 1000]`.  The
query `s = 1001` makes the loop read `maps_s[2]`; the query `s = 0` leaves
`prev_wp = -1`.  In both cases a vector is read outside its bounds. -/
theorem getXY_index_out_of_range_witness :
    (readAt ([0, 1000] : List ℚ) (((([0, 1000] : List ℚ).length : ℤ) - 1) + 1) = none ∧
      getXY Libm.sample 1001 2 [0, 1000] [0, 1000] [0, 0] = none) ∧
    (getXY_scan ([0, 1000] : List ℚ) 0 (-1) = some (-1) ∧
      getXY Libm.sample 0 2 [0, 1000] [0, 1000] [0, 0] = none) := by
  have h1 := (getXY_index_out_of_range Libm.sample 1001 2 [0, 1000] [0, 1000] [0, 0]
    (by simp)).1 (by intro v hv; simp at hv; rcases hv with rfl | rfl <;> norm_num)
  have h2 := (getXY_index_out_of_range Libm.sample 0 2 [0, 1000] [0, 1000] [0, 0]
    (by simp)).2 (by intro v hv; simp at hv; rw [← hv])
  exact ⟨⟨h1.2.1, h1.2.2.2⟩, ⟨h2.1, h2.2.2⟩⟩

/-! ## Closest waypoint -/

lemma closestLoop_spec (m : Libm K) (x y : K) (maps_x maps_y : List K)
    (hlen : maps_y.length = maps_x.length) :
    ∀ (n i : ℕ) (len : K) (wp : ℤ), i + n = maps_x.length →
      ∃ (len1 : K) (wp1 : ℤ),
        closestLoop m x y maps_x maps_y n i (len, wp) = some (len1, wp1) ∧
        ((len1 = len ∧ wp1 = wp ∧
            ∀ j, i ≤ j → j < maps_x.length → len ≤ wpDist m x y maps_x maps_y j) ∨
          (∃ j, i ≤ j ∧ j < maps_x.length ∧ wp1 = (j : ℤ) ∧
            len1 = wpDist m x y maps_x maps_y j ∧ wpDist m x y maps_x maps_y j < len ∧
            (∀ j1, i ≤ j1 → j1 < j →
              wpDist m x y maps_x maps_y j < wpDist m x y maps_x maps_y j1) ∧
            (∀ j1, i ≤ j1 → j1 < maps_x.length →
              wpDist m x y maps_x maps_y j ≤ wpDist m x y maps_x maps_y j1))) := by
  intro n
  induction n with
  | zero =>
    intro i len wp hi
    exact ⟨len, wp, rfl, Or.inl ⟨rfl, rfl, fun j h1 h2 => absurd h2 (by omega)⟩⟩
  | succ n ih =>
    intro i len wp hi
    have hix : i < maps_x.length := by omega
    have hiy : i < maps_y.length := by omega
    have ex : maps_x[i]? = some (maps_x.getD i 0) := by
      rw [List.getElem?_eq_getElem hix, List.getD_eq_getElem _ _ hix]
    have ey : maps_y[i]? = some (maps_y.getD i 0) := by
      rw [List.getElem?_eq_getElem hiy, List.getD_eq_getElem _ _ hiy]
    simp only [closestLoop, ex, ey, Option.bind_eq_bind, Option.some_bind]
    change ∃ len1 wp1,
      (if wpDist m x y maps_x maps_y i < len then
          closestLoop m x y maps_x maps_y n (i + 1) (wpDist m x y maps_x maps_y i, (i : ℤ))
        else closestLoop m x y maps_x maps_y n (i + 1) (len, wp)) = some (len1, wp1) ∧ _
    by_cases hd : wpDist m x y maps_x maps_y i < len
    · rw [if_pos hd]
      obtain ⟨len1, wp1, hr, hcase⟩ := ih (i + 1) (wpDist m x y maps_x maps_y i) (i : ℤ)
        (by omega)
      refine ⟨len1, wp1, hr, Or.inr ?_⟩
      rcases hcase with ⟨h1, h2, h3⟩ | ⟨j, hj1, hj2, hj3, hj4, hj5, hj6, hj7⟩
      · refine ⟨i, le_refl _, hix, h2, h1, hd, fun j1 a b => absurd b (by omega), ?_⟩
        intro j1 a b
        rcases Nat.eq_or_lt_of_le a with e | e
        · rw [← e]
        · exact h3 j1 e b
      · refine ⟨j, by omega, hj2, hj3, hj4, lt_trans hj5 hd, ?_, ?_⟩
        · intro j1 a b
          rcases Nat.eq_or_lt_of_le a with e | e
          · rw [← e]; exact hj5
          · exact hj6 j1 e b
        · intro j1 a b
          rcases Nat.eq_or_lt_of_le a with e | e
          · rw [← e]; exact le_of_lt hj5
          · exact hj7 j1 e b
    · rw [if_neg hd]
      obtain ⟨len1, wp1, hr, hcase⟩ := ih (i + 1) len wp (by omega)
      refine ⟨len1, wp1, hr, ?_⟩
      rcases hcase with ⟨h1, h2, h3⟩ | ⟨j, hj1, hj2, hj3, hj4, hj5, hj6, hj7⟩
      · refine Or.inl ⟨h1, h2, ?_⟩
        intro j1 a b
        rcases Nat.eq_or_lt_of_le a with e | e
        · rw [← e]; exact not_lt.mp hd
        · exact h3 j1 e b
      · refine Or.inr ⟨j, by omega, hj2, hj3, hj4, hj5, ?_, ?_⟩
        · intro j1 a b
          rcases Nat.eq_or_lt_of_le a with e | e
          · rw [← e]; exact lt_of_lt_of_le hj5 (not_lt.mp hd)
          · exact hj6 j1 e b
        · intro j1 a b
          rcases Nat.eq_or_lt_of_le a with e | e
          · rw [← e]; exact le_of_lt (lt_of_lt_of_le hj5 (not_lt.mp hd))
          · exact hj7 j1 e b

lemma distance_real_axis (a : ℝ) (ha : 0 ≤ a) : distance Libm.real 0 0 a 0 = a := by
  simp only [distance, Libm.real]
  rw [show (a - 0) * (a - 0) + ((0 : ℝ) - 0) * (0 - 0) = a ^ 2 by ring, Real.sqrt_sq ha]

/-- C12, counterexample. For the point `(0, 0)` and the two waypoints `(300000, 0)` and
`(200000, 0)`, both farther than the initial `closestLen = 100000`, `ClosestWaypoint`
returns index 0 although waypoint 1 is strictly closer. -/
theorem closest_waypoint_counterexample :
    ClosestWaypoint Libm.real 0 0 [300000, 200000] [0, 0] = some 0 ∧
      wpDist Libm.real 0 0 [300000, 200000] [0, 0] 1
        < wpDist Libm.real 0 0 [300000, 200000] [0, 0] 0 := by
  have d0 := distance_real_axis 300000 (by norm_num)
  have d1 := distance_real_axis 200000 (by norm_num)
  constructor
  · simp only [ClosestWaypoint, closestLoop, List.length_cons, List.length_nil,
      List.getElem?_cons_zero, List.getElem?_cons_succ, Option.bind_eq_bind,
      Option.some_bind, d0, d1]
    norm_num
  · simp only [wpDist, List.getD_cons_zero, List.getD_cons_succ, d0, d1]
    norm_num

/-- C12, amended. For every map (`maps_x`, `maps_y` of equal length) and every point
`(x, y)`: if some waypoint is at a distance below 100000 (the initial `closestLen`),
`ClosestWaypoint` returns an index `i` in `[0, n)` whose distance is at most that of
every waypoint `j`, and `i` is the smallest index attaining that minimum; if no
waypoint is at a distance below 100000, it returns 0. -/
theorem closest_waypoint (m : Libm K) (x y : K) (maps_x maps_y : List K)
    (hlen : maps_y.length = maps_x.length) :
    ((∃ j, j < maps_x.length ∧ wpDist m x y maps_x maps_y j < 100000) →
      ∃ i : ℕ, ClosestWaypoint m x y maps_x maps_y = some (i : ℤ) ∧ i < maps_x.length ∧
        (∀ j, j < maps_x.length →
          wpDist m x y maps_x maps_y i ≤ wpDist m x y maps_x maps_y j) ∧
        (∀ j, j < i → wpDist m x y maps_x maps_y i < wpDist m x y maps_x maps_y j)) ∧
    ((∀ j, j < maps_x.length → 100000 ≤ wpDist m x y maps_x maps_y j) →
      ClosestWaypoint m x y maps_x maps_y = some 0) := by
  obtain ⟨len1, wp1, hr, hcase⟩ := closestLoop_spec m x y maps_x maps_y hlen
    maps_x.length 0 100000 0 (by omega)
  have hres : ClosestWaypoint m x y maps_x maps_y = some wp1 := by
    unfold ClosestWaypoint
    rw [hr]
    rfl
  constructor
  · rintro ⟨j0, hj0, hnear⟩
    rcases hcase with ⟨_, _, h3⟩ | ⟨j, _, hj2, hj3, _, _, hj6, hj7⟩
    · exact absurd hnear (not_lt.mpr (h3 j0 (Nat.zero_le _) hj0))
    · refine ⟨j, ?_, hj2, fun j1 h => hj7 j1 (Nat.zero_le _) h,
        fun j1 h => hj6 j1 (Nat.zero_le _) h⟩
      rw [hres, hj3]
  · intro hfar
    rcases hcase with ⟨_, h2, _⟩ | ⟨j, _, hj2, _, _, hj5, _, _⟩
    · rw [hres, h2]
    · exact absurd hj5 (not_lt.mpr (hfar j hj2))

/-- C12, witness: the point `(0, 0)` and the waypoints `(3, 0)`, `(1, 0)`, `(1, 0)`. -/
theorem closest_waypoint_witness :
    ∃ i : ℕ, ClosestWaypoint Libm.real 0 0 [3, 1, 1] [0, 0, 0] = some (i : ℤ) ∧
      i < ([3, 1, 1] : List ℝ).length ∧
      (∀ j, j < ([3, 1, 1] : List ℝ).length →
        wpDist Libm.real 0 0 [3, 1, 1] [0, 0, 0] i ≤ wpDist Libm.real 0 0 [3, 1, 1] [0, 0, 0] j) ∧
      (∀ j, j < i →
        wpDist Libm.real 0 0 [3, 1, 1] [0, 0, 0] i < wpDist Libm.real 0 0 [3, 1, 1] [0, 0, 0] j) :=
  (closest_waypoint Libm.real 0 0 [3, 1, 1] [0, 0, 0] rfl).1
    ⟨1, by simp, by
      have d1 := distance_real_axis 1 (by norm_num)
      simp only [wpDist, List.getD_cons_zero, List.getD_cons_succ, d1]
      norm_num⟩

/-! ## Evaluation of `getXY` inside a segment -/

lemma readAt_nat (v : List K) (j : ℕ) (h : j < v.length) :
    readAt v (j : ℤ) = some (v.getD j 0) := by
  unfold readAt
  rw [if_pos (by omega), Int.toNat_ofNat, List.getElem?_eq_getElem h,
    List.getD_eq_getElem _ _ h]

lemma getXY_scan_segment (maps_s : List K) (s : K) (k : ℕ) (hk : k + 1 < maps_s.length)
    (hbelow : ∀ j, j ≤ k → maps_s.getD j 0 < s) (hle : s ≤ maps_s.getD (k + 1) 0) :
    getXY_scan maps_s s (-1) = some (k : ℤ) := by
  have key : ∀ d j : ℕ, j + d = k + 1 → getXY_scan maps_s s ((j : ℤ) - 1) = some (k : ℤ) := by
    intro d
    induction d with
    | zero =>
      intro j hj
      have hj1 : j = k + 1 := by omega
      subst hj1
      rw [getXY_scan_nat, dif_pos hk, if_neg]
      · congr 1
        push_cast
        ring
      · intro hc
        rw [← List.getD_eq_getElem _ 0 hk] at hc
        exact absurd hc.1 (not_lt.mpr hle)
    | succ d ih =>
      intro j hj
      have hjl : j < maps_s.length := by omega
      rw [getXY_scan_nat, dif_pos hjl, if_pos]
      · exact ih (j + 1) (by omega)
      · refine ⟨?_, by omega⟩
        rw [← List.getD_eq_getElem _ 0 hjl]
        exact hbelow j (by omega)
  have := key (k + 1) 0 (by omega)
  simpa using this

lemma getXY_segment (m : Libm K) (s d : K) (maps_s maps_x maps_y : List K) (k : ℕ)
    (hk : k + 1 < maps_s.length) (hx : maps_x.length = maps_s.length)
    (hy : maps_y.length = maps_s.length)
    (hbelow : ∀ j, j ≤ k → maps_s.getD j 0 < s) (hle : s ≤ maps_s.getD (k + 1) 0) :
    getXY m s d maps_s maps_x maps_y =
      some
        (maps_x.getD k 0
            + (s - maps_s.getD k 0) * m.cos (m.atan2
                (maps_y.getD (k + 1) 0 - maps_y.getD k 0)
                (maps_x.getD (k + 1) 0 - maps_x.getD k 0))
            + d * m.cos (m.atan2
                (maps_y.getD (k + 1) 0 - maps_y.getD k 0)
                (maps_x.getD (k + 1) 0 - maps_x.getD k 0) - m.pi / 2),
          maps_y.getD k 0
            + (s - maps_s.getD k 0) * m.sin (m.atan2
                (maps_y.getD (k + 1) 0 - maps_y.getD k 0)
                (maps_x.getD (k + 1) 0 - maps_x.getD k 0))
            + d * m.sin (m.atan2
                (maps_y.getD (k + 1) 0 - maps_y.getD k 0)
                (maps_x.getD (k + 1) 0 - maps_x.getD k 0) - m.pi / 2)) := by
  have hscan := getXY_scan_segment maps_s s k hk hbelow hle
  have hmod : ((k : ℤ) + 1) % (maps_x.length : ℤ) = ((k + 1 : ℕ) : ℤ) := by
    rw [hx]
    push_cast
    exact Int.emod_eq_of_lt (by omega) (by omega)
  have hne : ¬ maps_x.length = 0 := by omega
  unfold getXY
  rw [hscan]
  simp only [Option.bind_eq_bind, Option.some_bind, hmod, if_neg hne]
  rw [readAt_nat maps_y (k + 1) (by omega), readAt_nat maps_y k (by omega),
    readAt_nat maps_x (k + 1) (by omega), readAt_nat maps_x k (by omega),
    readAt_nat maps_s k (by omega)]
  rfl

/-! ## Anchor points from the pose and from the previous path -/

lemma buildPoints_short (m : Libm K) (ctx : context_t K) (car_x car_y car_yaw car_s : K)
    (px py : List K) (mwp_s mwp_x mwp_y : List K) (w1 w2 w3 : K × K)
    (hshort : px.length < 2)
    (h1 : getXY m (car_s + 30) (((ctx.lane : K) + 0.5) * 4) mwp_s mwp_x mwp_y = some w1)
    (h2 : getXY m (car_s + 60) (((ctx.lane : K) + 0.5) * 4) mwp_s mwp_x mwp_y = some w2)
    (h3 : getXY m (car_s + 90) (((ctx.lane : K) + 0.5) * 4) mwp_s mwp_x mwp_y = some w3) :
    globalAnchors m ctx car_x car_y car_yaw car_s px py mwp_s mwp_x mwp_y
      = some { ptsx := [car_x - m.cos car_yaw, car_x, w1.1, w2.1, w3.1],
               ptsy := [car_y - m.sin car_yaw, car_y, w1.2, w2.2, w3.2],
               ref_x := car_x, ref_y := car_y, ref_yaw := deg2rad m car_yaw } := by
  have e1 : car_s + 1 * ctx.PREDICTION_BASE_STEP = car_s + 30 := by
    unfold context_t.PREDICTION_BASE_STEP; ring
  have e2 : car_s + 2 * ctx.PREDICTION_BASE_STEP = car_s + 60 := by
    unfold context_t.PREDICTION_BASE_STEP; ring
  have e3 : car_s + 3 * ctx.PREDICTION_BASE_STEP = car_s + 90 := by
    unfold context_t.PREDICTION_BASE_STEP; ring
  have e4 : ctx.LANE_WIDTH = 4 := rfl
  have hp : ((px.length : ℕ) : ℤ) < 2 := by omega
  unfold globalAnchors
  simp only [e1, e2, e3, e4, h1, h2, h3]
  simp [hp]

lemma buildPoints_long (m : Libm K) (ctx : context_t K) (car_x car_y car_yaw car_s : K)
    (px py : List K) (mwp_s mwp_x mwp_y : List K) (w1 w2 w3 : K × K)
    (hlong : 2 ≤ px.length) (hxy : py.length = px.length)
    (h1 : getXY m (car_s + 30) (((ctx.lane : K) + 0.5) * 4) mwp_s mwp_x mwp_y = some w1)
    (h2 : getXY m (car_s + 60) (((ctx.lane : K) + 0.5) * 4) mwp_s mwp_x mwp_y = some w2)
    (h3 : getXY m (car_s + 90) (((ctx.lane : K) + 0.5) * 4) mwp_s mwp_x mwp_y = some w3) :
    globalAnchors m ctx car_x car_y car_yaw car_s px py mwp_s mwp_x mwp_y
      = some { ptsx := [px.getD (px.length - 2) 0, px.getD (px.length - 1) 0,
                 w1.1, w2.1, w3.1],
               ptsy := [py.getD (px.length - 2) 0, py.getD (px.length - 1) 0,
                 w1.2, w2.2, w3.2],
               ref_x := px.getD (px.length - 1) 0, ref_y := py.getD (px.length - 1) 0,
               ref_yaw := m.atan2
                 (py.getD (px.length - 1) 0 - py.getD (px.length - 2) 0)
                 (px.getD (px.length - 1) 0 - px.getD (px.length - 2) 0) } := by
  have e1 : car_s + 1 * ctx.PREDICTION_BASE_STEP = car_s + 30 := by
    unfold context_t.PREDICTION_BASE_STEP; ring
  have e2 : car_s + 2 * ctx.PREDICTION_BASE_STEP = car_s + 60 := by
    unfold context_t.PREDICTION_BASE_STEP; ring
  have e3 : car_s + 3 * ctx.PREDICTION_BASE_STEP = car_s + 90 := by
    unfold context_t.PREDICTION_BASE_STEP; ring
  have e4 : ctx.LANE_WIDTH = 4 := rfl
  have hp : ¬ ((px.length : ℕ) : ℤ) < 2 := by omega
  have c1 : (px.length : ℤ) - 1 = ((px.length - 1 : ℕ) : ℤ) := by omega
  have c2 : (px.length : ℤ) - 2 = ((px.length - 2 : ℕ) : ℤ) := by omega
  have r1 := readAt_nat px (px.length - 1) (by omega)
  have r2 := readAt_nat px (px.length - 2) (by omega)
  have r3 := readAt_nat py (px.length - 1) (by omega)
  have r4 := readAt_nat py (px.length - 2) (by omega)
  unfold globalAnchors
  simp only [e1, e2, e3, e4, h1, h2, h3, c1, c2, r1, r2, r3, r4]
  simp [hp]

lemma getXY_straight_map (m : Libm K) (s d : K) (h0 : 0 < s) (h1 : s ≤ 1000) :
    ∃ w, getXY m s d [0, 1000] [0, 1000] [0, 0] = some w := by
  refine ⟨_, getXY_segment m s d [0, 1000] [0, 1000] [0, 0] 0 (by simp) rfl rfl ?_ ?_⟩
  · intro j hj
    have : j = 0 := by omega
    subst this
    simpa using h0
  · simpa using h1

lemma real_sin_180_ne_zero : Real.sin 180 ≠ 0 := by
  intro h
  obtain ⟨n, hn⟩ := Real.sin_eq_zero_iff.mp h
  have hpi1 := Real.pi_gt_d2
  have hpi2 := Real.pi_lt_d2
  have hpos : (0 : ℝ) < Real.pi := Real.pi_pos
  rcases le_or_lt n 57 with hle | hgt
  · have h1 : (n : ℝ) ≤ 57 := by exact_mod_cast hle
    have h2 : (n : ℝ) * Real.pi ≤ 57 * Real.pi := mul_le_mul_of_nonneg_right h1 hpos.le
    linarith
  · have h1 : (58 : ℝ) ≤ n := by exact_mod_cast hgt
    have h2 : 58 * Real.pi ≤ (n : ℝ) * Real.pi := mul_le_mul_of_nonneg_right h1 hpos.le
    linarith

/-- C14, evaluated on the code.  With fewer than 2 previous-path points (and `getXY`
returning the three far anchors), `buildPointsForBaseSpline` sets the frame origin to
`(car_x, car_y)` and the heading to `deg2rad(car_yaw)`, and its second anchor is the
origin of the local frame; but its first anchor is
`(car_x - cos(car_yaw), car_y - sin(car_yaw))`, `cos` and `sin` taken of the yaw in
degrees (lines 315, 318), converted to the frame of heading `deg2rad(car_yaw)`. -/
theorem fictitious_prior_point (m : Libm K) (ctx : context_t K)
    (car_x car_y car_yaw car_s : K) (px py : List K) (mwp_s mwp_x mwp_y : List K)
    (w1 w2 w3 : K × K) (hshort : px.length < 2)
    (h1 : getXY m (car_s + 30) (((ctx.lane : K) + 0.5) * 4) mwp_s mwp_x mwp_y = some w1)
    (h2 : getXY m (car_s + 60) (((ctx.lane : K) + 0.5) * 4) mwp_s mwp_x mwp_y = some w2)
    (h3 : getXY m (car_s + 90) (((ctx.lane : K) + 0.5) * 4) mwp_s mwp_x mwp_y = some w3) :
    ∃ pts : BasePoints K,
      buildPointsForBaseSpline m ctx car_x car_y car_yaw car_s px py mwp_s mwp_x mwp_y
        = some pts ∧
      pts.ref_x = car_x ∧ pts.ref_y = car_y ∧ pts.ref_yaw = car_yaw * m.pi / 180 ∧
      pts.ptsx[0]? = some (toCarFrame m car_x car_y (car_yaw * m.pi / 180)
        (car_x - m.cos car_yaw) (car_y - m.sin car_yaw)).1 ∧
      pts.ptsy[0]? = some (toCarFrame m car_x car_y (car_yaw * m.pi / 180)
        (car_x - m.cos car_yaw) (car_y - m.sin car_yaw)).2 ∧
      pts.ptsx[1]? = some 0 ∧ pts.ptsy[1]? = some 0 := by
  have hg := buildPoints_short m ctx car_x car_y car_yaw car_s px py mwp_s mwp_x mwp_y
    w1 w2 w3 hshort h1 h2 h3
  refine ⟨_, by unfold buildPointsForBaseSpline; rw [hg]; rfl, rfl, rfl, rfl, ?_, ?_, ?_, ?_⟩
  · simp [deg2rad]
  · simp [deg2rad]
  · simp [toCarFrame]
  · simp [toCarFrame]

/-- C14, at the failing input: pose `(0, 0)` with `car_yaw = 180` degrees, no previous
path, `car_s = 100`, lane 1, a straight map of two waypoints.  The heading is `π`, yet
the first anchor in the local frame is `(cos 180, sin 180)` (180 taken as radians), and
`sin 180 ≠ 0`: it is not `(-1, 0)`. -/
theorem fictitious_prior_point_witness :
    ∃ pts : BasePoints ℝ,
      buildPointsForBaseSpline Libm.real ({ lane := 1, speed := 0 } : context_t ℝ)
        0 0 180 100 [] [] [0, 1000] [0, 1000] [0, 0] = some pts ∧
      pts.ref_yaw = Real.pi ∧
      pts.ptsx[0]? = some (Real.cos 180) ∧ pts.ptsy[0]? = some (Real.sin 180) ∧
      Real.sin 180 ≠ 0 := by
  have hseg := getXY_straight_map Libm.real
  obtain ⟨w1, hw1⟩ := hseg (100 + 30)
    ((((({ lane := 1, speed := 0 } : context_t ℝ).lane : ℤ) : ℝ) + 0.5) * 4)
    (by norm_num) (by norm_num)
  obtain ⟨w2, hw2⟩ := hseg (100 + 60)
    ((((({ lane := 1, speed := 0 } : context_t ℝ).lane : ℤ) : ℝ) + 0.5) * 4)
    (by norm_num) (by norm_num)
  obtain ⟨w3, hw3⟩ := hseg (100 + 90)
    ((((({ lane := 1, speed := 0 } : context_t ℝ).lane : ℤ) : ℝ) + 0.5) * 4)
    (by norm_num) (by norm_num)
  obtain ⟨pts, hp, _, _, hyaw, hx, hy, _, _⟩ := fictitious_prior_point Libm.real
    ({ lane := 1, speed := 0 } : context_t ℝ) 0 0 180 100 [] [] [0, 1000] [0, 1000] [0, 0]
    w1 w2 w3 (by simp) hw1 hw2 hw3
  have hpi : (180 : ℝ) * Libm.real.pi / 180 = Real.pi := by
    simp [Libm.real]
  rw [hpi] at hyaw hx hy
  refine ⟨pts, hp, hyaw, ?_, ?_, real_sin_180_ne_zero⟩
  · rw [hx]
    simp [toCarFrame, Libm.real]
  · rw [hy]
    simp [toCarFrame, Libm.real]

lemma real_heading (dx dy : ℝ) (h : dx ≠ 0 ∨ dy ≠ 0) :
    0 < Real.sqrt (dx * dx + dy * dy) ∧
      Real.cos (Complex.arg ⟨dx, dy⟩) = dx / Real.sqrt (dx * dx + dy * dy) ∧
      Real.sin (Complex.arg ⟨dx, dy⟩) = dy / Real.sqrt (dx * dx + dy * dy) := by
  have hz : (⟨dx, dy⟩ : ℂ) ≠ 0 := by
    intro hc
    have h1 := congrArg Complex.re hc
    have h2 := congrArg Complex.im hc
    simp at h1 h2
    rcases h with h | h
    · exact h h1
    · exact h h2
  have habs : Complex.abs ⟨dx, dy⟩ = Real.sqrt (dx * dx + dy * dy) := by
    rw [Complex.abs_apply, Complex.normSq_mk]
  refine ⟨?_, ?_, ?_⟩
  · rw [← habs]
    exact Complex.abs.pos hz
  · rw [Complex.cos_arg hz, habs]
  · rw [Complex.sin_arg, habs]

/-- C15. Tangent anchors from the previous tail (real arithmetic): for every previous
path with at least 2 points whose last two points `p` (before last) and `q` (last) are
distinct, `buildPointsForBaseSpline` returns the frame origin `q` and the heading
`atan2(q.y - p.y, q.x - p.x)`, and the first two anchors in the local frame are
`(-|q - p|, 0)` and `(0, 0)`: both on the local x-axis, with strictly increasing x. -/
theorem tangent_anchors (ctx : context_t ℝ) (car_x car_y car_yaw car_s : ℝ)
    (px py : List ℝ) (mwp_s mwp_x mwp_y : List ℝ) (w1 w2 w3 : ℝ × ℝ)
    (hlong : 2 ≤ px.length) (hxy : py.length = px.length)
    (hpq : px.getD (px.length - 2) 0 ≠ px.getD (px.length - 1) 0 ∨
      py.getD (px.length - 2) 0 ≠ py.getD (px.length - 1) 0)
    (h1 : getXY Libm.real (car_s + 30) (((ctx.lane : ℝ) + 0.5) * 4) mwp_s mwp_x mwp_y
      = some w1)
    (h2 : getXY Libm.real (car_s + 60) (((ctx.lane : ℝ) + 0.5) * 4) mwp_s mwp_x mwp_y
      = some w2)
    (h3 : getXY Libm.real (car_s + 90) (((ctx.lane : ℝ) + 0.5) * 4) mwp_s mwp_x mwp_y
      = some w3) :
    ∃ pts : BasePoints ℝ,
      buildPointsForBaseSpline Libm.real ctx car_x car_y car_yaw car_s px py
        mwp_s mwp_x mwp_y = some pts ∧
      pts.ref_x = px.getD (px.length - 1) 0 ∧ pts.ref_y = py.getD (px.length - 1) 0 ∧
      pts.ref_yaw = Libm.real.atan2
        (py.getD (px.length - 1) 0 - py.getD (px.length - 2) 0)
        (px.getD (px.length - 1) 0 - px.getD (px.length - 2) 0) ∧
      pts.ptsx[0]? = some (-(distance Libm.real
        (px.getD (px.length - 2) 0) (py.getD (px.length - 2) 0)
        (px.getD (px.length - 1) 0) (py.getD (px.length - 1) 0))) ∧
      pts.ptsy[0]? = some 0 ∧ pts.ptsx[1]? = some 0 ∧ pts.ptsy[1]? = some 0 ∧
      -(distance Libm.real
        (px.getD (px.length - 2) 0) (py.getD (px.length - 2) 0)
        (px.getD (px.length - 1) 0) (py.getD (px.length - 1) 0)) < 0 := by
  have hg := buildPoints_long Libm.real ctx car_x car_y car_yaw car_s px py
    mwp_s mwp_x mwp_y w1 w2 w3 hlong hxy h1 h2 h3
  have hne : px.getD (px.length - 1) 0 - px.getD (px.length - 2) 0 ≠ 0 ∨
      py.getD (px.length - 1) 0 - py.getD (px.length - 2) 0 ≠ 0 := by
    rcases hpq with h | h
    · exact Or.inl (sub_ne_zero.mpr (Ne.symm h))
    · exact Or.inr (sub_ne_zero.mpr (Ne.symm h))
  obtain ⟨hL, hcos, hsin⟩ := real_heading _ _ hne
  set qx := px.getD (px.length - 1) 0 with hqx
  set qy := py.getD (px.length - 1) 0 with hqy
  set p1 := px.getD (px.length - 2) 0 with hp1
  set p2 := py.getD (px.length - 2) 0 with hp2
  set L := Real.sqrt ((qx - p1) * (qx - p1) + (qy - p2) * (qy - p2)) with hLdef
  have hLsq : L * L = (qx - p1) * (qx - p1) + (qy - p2) * (qy - p2) :=
    Real.mul_self_sqrt (add_nonneg (mul_self_nonneg _) (mul_self_nonneg _))
  have hLne : L ≠ 0 := ne_of_gt hL
  refine ⟨_, by unfold buildPointsForBaseSpline; rw [hg]; rfl, rfl, rfl, rfl,
    ?_, ?_, ?_, ?_, ?_⟩
  · simp only [List.zipWith_cons_cons, List.getElem?_cons_zero, toCarFrame, Libm.real,
      distance, zero_sub, Real.cos_neg, Real.sin_neg, hcos, hsin, ← hLdef]
    congr 1
    field_simp
    nlinarith [hLsq]
  · simp only [List.zipWith_cons_cons, List.getElem?_cons_zero, toCarFrame, Libm.real,
      zero_sub, Real.cos_neg, Real.sin_neg, hcos, hsin, ← hLdef]
    congr 1
    field_simp
    ring
  · simp [toCarFrame]
  · simp [toCarFrame]
  · simp only [distance, Libm.real, ← hLdef]
    linarith

/-- C15, witness: the previous path `(0, 0), (3, 4)`, so `|q - p| = 5`; `car_s = 100`,
lane 1, a straight map of two waypoints. -/
theorem tangent_anchors_witness :
    ∃ pts : BasePoints ℝ,
      buildPointsForBaseSpline Libm.real ({ lane := 1, speed := 0 } : context_t ℝ)
        3 4 0 100 [0, 3] [0, 4] [0, 1000] [0, 1000] [0, 0] = some pts ∧
      pts.ref_x = 3 ∧ pts.ref_y = 4 ∧
      pts.ptsx[0]? = some (-5 : ℝ) ∧ pts.ptsy[0]? = some 0 ∧
      pts.ptsx[1]? = some 0 ∧ pts.ptsy[1]? = some 0 := by
  have hseg := getXY_straight_map Libm.real
  obtain ⟨w1, hw1⟩ := hseg (100 + 30)
    ((((({ lane := 1, speed := 0 } : context_t ℝ).lane : ℤ) : ℝ) + 0.5) * 4)
    (by norm_num) (by norm_num)
  obtain ⟨w2, hw2⟩ := hseg (100 + 60)
    ((((({ lane := 1, speed := 0 } : context_t ℝ).lane : ℤ) : ℝ) + 0.5) * 4)
    (by norm_num) (by norm_num)
  obtain ⟨w3, hw3⟩ := hseg (100 + 90)
    ((((({ lane := 1, speed := 0 } : context_t ℝ).lane : ℤ) : ℝ) + 0.5) * 4)
    (by norm_num) (by norm_num)
  obtain ⟨pts, hp, hx, hy, _, h0x, h0y, h1x, h1y, _⟩ := tangent_anchors
    ({ lane := 1, speed := 0 } : context_t ℝ) 3 4 0 100 [0, 3] [0, 4]
    [0, 1000] [0, 1000] [0, 0] w1 w2 w3 (by simp) rfl (Or.inl (by norm_num)) hw1 hw2 hw3
  have hd : distance Libm.real 0 0 3 4 = 5 := by
    simp only [distance, Libm.real]
    rw [show ((3 : ℝ) - 0) * (3 - 0) + (4 - 0) * (4 - 0) = 5 ^ 2 by norm_num,
      Real.sqrt_sq (by norm_num)]
  refine ⟨pts, hp, ?_, ?_, ?_, h0y, h1x, h1y⟩
  · rw [hx]; rfl
  · rw [hy]; rfl
  · rw [h0x]
    simp only [List.length_cons, List.length_nil, List.getD_cons_zero, List.getD_cons_succ]
    norm_num [hd]

/-! ## Sample spacing of `fillRestOfPath` -/

lemma fillLoop_formula (m : Libm K) (f : K → K) (ref_x ref_y ref_yaw base_step_x steps : K)
    (n : ℕ) (x0 : K) (nx ny : List K) :
    fillLoop m f ref_x ref_y ref_yaw base_step_x steps n (x0, nx, ny)
      = (x0 + (n : K) * (base_step_x / steps),
         nx ++ (List.range n).map (fun i : ℕ =>
           (localToGlobal m ref_x ref_y ref_yaw
             (x0 + ((i : K) + 1) * (base_step_x / steps))
             (f (x0 + ((i : K) + 1) * (base_step_x / steps)))).1),
         ny ++ (List.range n).map (fun i : ℕ =>
           (localToGlobal m ref_x ref_y ref_yaw
             (x0 + ((i : K) + 1) * (base_step_x / steps))
             (f (x0 + ((i : K) + 1) * (base_step_x / steps)))).2)) := by
  induction n generalizing x0 nx ny with
  | zero => simp [fillLoop]
  | succ n ih =>
    simp only [fillLoop]
    rw [ih]
    have e0 : x0 + base_step_x / steps + (n : K) * (base_step_x / steps)
        = x0 + ((n + 1 : ℕ) : K) * (base_step_x / steps) := by
      push_cast; ring
    have e1 : ∀ i : ℕ, x0 + base_step_x / steps + ((i : K) + 1) * (base_step_x / steps)
        = x0 + (((i + 1 : ℕ) : K) + 1) * (base_step_x / steps) := by
      intro i; push_cast; ring
    have e2 : x0 + base_step_x / steps = x0 + (((0 : ℕ) : K) + 1) * (base_step_x / steps) := by
      push_cast; ring
    simp only [e0, e1, List.range_succ_eq_map, List.map_cons, List.map_map,
      List.append_assoc, List.singleton_append, Function.comp_def, localToGlobal]
    rw [e2]

lemma fill_increment (m : Libm K) (ctx : context_t K) (f : K → K) :
    ctx.PREDICTION_BASE_STEP / fillSteps m ctx f = sampleStep m ctx (f 30) := by
  unfold fillSteps sampleStep stepsDivisor distance context_t.PREDICTION_BASE_STEP
  have e : ((30 : K) - 0) * (30 - 0) + (f 30 - 0) * (f 30 - 0) = 30 ^ 2 + f 30 ^ 2 := by ring
  simp only [e]
  rw [div_div_eq_mul_div]

lemma fillRestOfPath_formula (m : Libm K) (ctx : context_t K) (f : K → K)
    (nx ny : List K) (ref_x ref_y ref_yaw : K) (h : ℕ) :
    fillRestOfPath m ctx nx ny f ref_x ref_y ref_yaw (h : ℤ)
      = (nx ++ (List.range (50 - h)).map (fun i : ℕ =>
           (localToGlobal m ref_x ref_y ref_yaw
             (((i : K) + 1) * sampleStep m ctx (f 30))
             (f (((i : K) + 1) * sampleStep m ctx (f 30)))).1),
         ny ++ (List.range (50 - h)).map (fun i : ℕ =>
           (localToGlobal m ref_x ref_y ref_yaw
             (((i : K) + 1) * sampleStep m ctx (f 30))
             (f (((i : K) + 1) * sampleStep m ctx (f 30)))).2)) := by
  have hn : (ctx.N_PREDICTION_POINTS - (h : ℤ)).toNat = 50 - h := by
    unfold context_t.N_PREDICTION_POINTS
    omega
  unfold fillRestOfPath
  simp only [fillLoop_formula, hn, fill_increment, zero_add]

lemma straight_line_spacing (c D S x1 y1 cs sn rx ry : ℝ) (hD : 0 ≤ D) (hS : 0 < S)
    (hS2 : S ^ 2 = 30 ^ 2 + (30 * c) ^ 2) (htrig : cs ^ 2 + sn ^ 2 = 1) :
    Real.sqrt
      ((((x1 + 30 * D / S) * cs - (y1 + c * (30 * D / S)) * sn + rx)
          - (x1 * cs - y1 * sn + rx))
        * (((x1 + 30 * D / S) * cs - (y1 + c * (30 * D / S)) * sn + rx)
          - (x1 * cs - y1 * sn + rx))
      + (((x1 + 30 * D / S) * sn + (y1 + c * (30 * D / S)) * cs + ry)
          - (x1 * sn + y1 * cs + ry))
        * (((x1 + 30 * D / S) * sn + (y1 + c * (30 * D / S)) * cs + ry)
          - (x1 * sn + y1 * cs + ry))) = D := by
  have hSne : S ≠ 0 := ne_of_gt hS
  have key : (((x1 + 30 * D / S) * cs - (y1 + c * (30 * D / S)) * sn + rx)
          - (x1 * cs - y1 * sn + rx))
        * (((x1 + 30 * D / S) * cs - (y1 + c * (30 * D / S)) * sn + rx)
          - (x1 * cs - y1 * sn + rx))
      + (((x1 + 30 * D / S) * sn + (y1 + c * (30 * D / S)) * cs + ry)
          - (x1 * sn + y1 * cs + ry))
        * (((x1 + 30 * D / S) * sn + (y1 + c * (30 * D / S)) * cs + ry)
          - (x1 * sn + y1 * cs + ry)) = D ^ 2 := by
    have e1 : (((x1 + 30 * D / S) * cs - (y1 + c * (30 * D / S)) * sn + rx)
          - (x1 * cs - y1 * sn + rx))
        * (((x1 + 30 * D / S) * cs - (y1 + c * (30 * D / S)) * sn + rx)
          - (x1 * cs - y1 * sn + rx))
      + (((x1 + 30 * D / S) * sn + (y1 + c * (30 * D / S)) * cs + ry)
          - (x1 * sn + y1 * cs + ry))
        * (((x1 + 30 * D / S) * sn + (y1 + c * (30 * D / S)) * cs + ry)
          - (x1 * sn + y1 * cs + ry))
        = (D / S) ^ 2 * (30 ^ 2 + (30 * c) ^ 2) * (cs ^ 2 + sn ^ 2) := by ring
    rw [e1, htrig, ← hS2]
    field_simp
  rw [key, Real.sqrt_sq hD]

/-- C16. Sample spacing (real arithmetic): for every speed > 0, every curve `f` and
every `h ≤ 50`, `fillRestOfPath` appends `50 - h` samples; the `k`-th of them
(`k = 1 .. 50 - h`) has local x equal to `k * step` with
`step = 30 * (UPDATE_RATE * speed / 2.24) / sqrt(30^2 + f(30)^2)` and its global position
is `origin + R(ref_yaw) * (k * step, f(k * step))`.  When `f` is the straight line
through `(0, 0)` and `(30, f(30))`, consecutive samples are exactly
`UPDATE_RATE * speed / 2.24` apart. -/
theorem sample_spacing (ctx : context_t ℝ) (f : ℝ → ℝ) (nx ny : List ℝ)
    (ref_x ref_y ref_yaw : ℝ) (h : ℕ) (hspeed : 0 < ctx.speed) (_hh : h ≤ 50) :
    ∃ ax ay : List ℝ,
      fillRestOfPath Libm.real ctx nx ny f ref_x ref_y ref_yaw (h : ℤ)
        = (nx ++ ax, ny ++ ay) ∧
      ax.length = 50 - h ∧ ay.length = 50 - h ∧
      (∀ k : ℕ, 1 ≤ k → k ≤ 50 - h →
        ax[k - 1]? = some (localToGlobal Libm.real ref_x ref_y ref_yaw
          ((k : ℝ) * sampleStep Libm.real ctx (f 30))
          (f ((k : ℝ) * sampleStep Libm.real ctx (f 30)))).1 ∧
        ay[k - 1]? = some (localToGlobal Libm.real ref_x ref_y ref_yaw
          ((k : ℝ) * sampleStep Libm.real ctx (f 30))
          (f ((k : ℝ) * sampleStep Libm.real ctx (f 30)))).2) ∧
      sampleStep Libm.real ctx (f 30)
        = 30 * (0.02 * ctx.speed / 2.24) / Real.sqrt (30 ^ 2 + f 30 ^ 2) ∧
      ((∀ x, f x = f 30 / 30 * x) → ∀ k : ℕ,
        distance Libm.real
          (localToGlobal Libm.real ref_x ref_y ref_yaw
            ((k : ℝ) * sampleStep Libm.real ctx (f 30))
            (f ((k : ℝ) * sampleStep Libm.real ctx (f 30)))).1
          (localToGlobal Libm.real ref_x ref_y ref_yaw
            ((k : ℝ) * sampleStep Libm.real ctx (f 30))
            (f ((k : ℝ) * sampleStep Libm.real ctx (f 30)))).2
          (localToGlobal Libm.real ref_x ref_y ref_yaw
            (((k + 1 : ℕ) : ℝ) * sampleStep Libm.real ctx (f 30))
            (f (((k + 1 : ℕ) : ℝ) * sampleStep Libm.real ctx (f 30)))).1
          (localToGlobal Libm.real ref_x ref_y ref_yaw
            (((k + 1 : ℕ) : ℝ) * sampleStep Libm.real ctx (f 30))
            (f (((k + 1 : ℕ) : ℝ) * sampleStep Libm.real ctx (f 30)))).2
        = 0.02 * ctx.speed / 2.24) := by
  refine ⟨_, _, fillRestOfPath_formula Libm.real ctx f nx ny ref_x ref_y ref_yaw h,
    by simp, by simp, ?_, rfl, ?_⟩
  · intro k hk1 hk2
    have hlt : k - 1 < 50 - h := by omega
    have hcast : (((k - 1 : ℕ) : ℝ) + 1) = (k : ℝ) := by
      have : k - 1 + 1 = k := by omega
      exact_mod_cast this
    constructor
    · rw [List.getElem?_map, List.getElem?_range hlt]
      simp only [Option.map_some', hcast]
    · rw [List.getElem?_map, List.getElem?_range hlt]
      simp only [Option.map_some', hcast]
  · intro hline k
    have hD : (0 : ℝ) ≤ 0.02 * ctx.speed / 2.24 := by positivity
    have hrad : (0 : ℝ) < 30 ^ 2 + (30 * (f 30 / 30)) ^ 2 := by positivity
    have hS : 0 < Real.sqrt (30 ^ 2 + (30 * (f 30 / 30)) ^ 2) := Real.sqrt_pos.mpr hrad
    have hS2 : Real.sqrt (30 ^ 2 + (30 * (f 30 / 30)) ^ 2) ^ 2
        = 30 ^ 2 + (30 * (f 30 / 30)) ^ 2 := Real.sq_sqrt hrad.le
    have hf30 : 30 * (f 30 / 30) = f 30 := by field_simp
    have hstep : sampleStep Libm.real ctx (f 30)
        = 30 * (0.02 * ctx.speed / 2.24) / Real.sqrt (30 ^ 2 + (30 * (f 30 / 30)) ^ 2) := by
      rw [hf30]; rfl
    have hsucc : ((k + 1 : ℕ) : ℝ) * sampleStep Libm.real ctx (f 30)
        = (k : ℝ) * sampleStep Libm.real ctx (f 30)
          + 30 * (0.02 * ctx.speed / 2.24)
            / Real.sqrt (30 ^ 2 + (30 * (f 30 / 30)) ^ 2) := by
      rw [← hstep]; push_cast; ring
    have hfs : f (((k + 1 : ℕ) : ℝ) * sampleStep Libm.real ctx (f 30))
        = f ((k : ℝ) * sampleStep Libm.real ctx (f 30))
          + f 30 / 30 * (30 * (0.02 * ctx.speed / 2.24)
            / Real.sqrt (30 ^ 2 + (30 * (f 30 / 30)) ^ 2)) := by
      rw [hline (((k + 1 : ℕ) : ℝ) * sampleStep Libm.real ctx (f 30)),
        hline ((k : ℝ) * sampleStep Libm.real ctx (f 30)), hsucc]
      ring
    rw [hfs, hsucc]
    simp only [distance, localToGlobal, Libm.real]
    exact straight_line_spacing (f 30 / 30) (0.02 * ctx.speed / 2.24) _ _ _ _ _ _ _ hD hS hS2
      (Real.cos_sq_add_sin_sq ref_yaw)

/-- C16, witness: speed 22.4, the line `f(x) = 4/3 x`, a previous path of 48 points:
two samples are appended. -/
theorem sample_spacing_witness :
    ∃ ax ay : List ℝ,
      fillRestOfPath Libm.real ({ lane := 1, speed := 22.4 } : context_t ℝ)
        (List.replicate 48 0) (List.replicate 48 0) (fun x => 4 / 3 * x) 0 0 0 ((48 : ℕ) : ℤ)
        = (List.replicate 48 0 ++ ax, List.replicate 48 0 ++ ay) ∧
      ax.length = 2 ∧ ay.length = 2 := by
  obtain ⟨ax, ay, h1, h2, h3, _⟩ := sample_spacing
    ({ lane := 1, speed := 22.4 } : context_t ℝ) (fun x => 4 / 3 * x)
    (List.replicate 48 0) (List.replicate 48 0) 0 0 0 48 (by norm_num) (by norm_num)
  exact ⟨ax, ay, h1, h2, h3⟩

/-! ## Frenet round trip -/

end Theorems

end PathPlanning
